import Mathlib

/-!
# SE4 standard endpoints (ozzo-se4): model and verification

A shallow embedding of `endpoints.go`.

* Go values become Lean structures; `time.Duration` is an integer count of
  nanoseconds, `time.Time` an integer count of nanoseconds since the zero time.
* A `float64` is the rational number it denotes; every float64 operation computes
  the exact result and rounds it to the nearest binary64 value, ties to even
  (`roundFloat64`).
* User supplied callbacks (`func() T`) may have side effects; they are functions
  `W → T × W` over a world `W` that stands for the rest of the program's memory.
* `StandardEndpoints` is shared between goroutines.  Every critical section of the
  mutex `locker` is one atomic step of a transition system (`step`); the part of
  the timer function that runs outside the lock is split into one step per loop
  iteration, so that calls of `SetHealthCheckFuncs` and ticks interleave freely.
* `*time.Timer` values live in a heap (`System.timers`), addressed by index.
-/

namespace Se4

/-! ## Data model -/

/-- Stands for `time.Duration`: a signed count of nanoseconds. -/
abbrev Duration := Int

/-- Stands for `time.Time`: nanoseconds since the zero time; `0` is the zero value. -/
abbrev Time := Int

/-- The constant `time.Millisecond`. -/
def Millisecond : Duration := 1000000

/-- Smallest value of a signed 64-bit integer. -/
def minInt64 : Int := -(2 ^ 63)

/-- Largest value of a signed 64-bit integer. -/
def maxInt64 : Int := 2 ^ 63 - 1

def MIME_TEXT_PLAIN : String := "text/plain"

def StatusOK : Nat := 200

def StatusServiceUnavailable : Nat := 503

/-- The record `HealthCheckResult`; `DurationMillis` is the rational value of its float64. -/
structure HealthCheckResult where
  DurationMillis : ℚ
  Name : String
  Result : String
  Timestamp : Time
  deriving DecidableEq

/-- The record `HealthCheckReport`; the zero value has no results and the zero time. -/
structure HealthCheckReport where
  Timestamp : Time
  Duration : Duration
  Results : List HealthCheckResult
  deriving DecidableEq

/-- The Go zero value `HealthCheckReport{}`. -/
def HealthCheckReport.zero : HealthCheckReport :=
  { Timestamp := 0, Duration := 0, Results := [] }

/-- The Go zero value `HealthCheckResult{}`. -/
def HealthCheckResult.zero : HealthCheckResult :=
  { DurationMillis := 0, Name := "", Result := "", Timestamp := 0 }

/-- Round a rational to the nearest integer, a tie to the even one. -/
def roundHalfEven (y : ℚ) : ℤ :=
  let f := ⌊y⌋
  if y - f < 1 / 2 then f
  else if 1 / 2 < y - f then f + 1
  else if f % 2 = 0 then f else f + 1

/-- The binary exponent of the binary64 format at `x`: that of the leading bit of `x`, and
-1022 for the subnormal numbers. -/
def float64Exponent (x : ℚ) : ℤ := max (Int.log 2 |x|) (-1022)

/-- The IEEE 754 rounding to binary64, to nearest and ties to even: the multiple of
`2 ^ (e - 52)` nearest to `x`, with `e` the exponent at `x`, so that the result has a
significand of 53 bits.  Overflow to an infinity (magnitudes from `2 ^ 1024` on) is left
out: the values of this program stay below `2 ^ 44`. -/
def roundFloat64 (x : ℚ) : ℚ :=
  if x = 0 then 0
  else (roundHalfEven (x / 2 ^ (float64Exponent x - 52)) : ℚ) * 2 ^ (float64Exponent x - 52)

/-- The conversion `float64(n)` of a 64-bit integer. -/
def float64OfInt (n : Int) : ℚ := roundFloat64 n

/-- The float64 addition. -/
def float64Add (x y : ℚ) : ℚ := roundFloat64 (x + y)

/-- The float64 division, by a divisor other than zero. -/
def float64Div (x y : ℚ) : ℚ := roundFloat64 (x / y)

/-- The function `DurationToMillis`: Go integer division truncates toward zero and the
remainder takes the sign of the dividend; the conversions, the division by the constant
`1e6` and the addition are float64 operations, each with its rounding. -/
def DurationToMillis (duration : Duration) : ℚ :=
  let sec := Int.tdiv duration Millisecond
  let nsec := Int.tmod duration Millisecond
  float64Add (float64OfInt sec) (float64Div (float64OfInt nsec) 1000000)

/-- The formula of `DurationToMillis` with its arithmetic read over the rationals, without
any rounding: the reading the specification gives of it. -/
def DurationToMillisExact (duration : Duration) : ℚ :=
  let sec := Int.tdiv duration Millisecond
  let nsec := Int.tmod duration Millisecond
  (sec : ℚ) + (nsec : ℚ) / 1000000

def HealthResultNotRun : String := "not_run"
def HealthResultRunning : String := "running"
def HealthResultPassed : String := "passed"
def HealthResultFailed : String := "failed"

/-- A health check `func() HealthCheckResult`, acting on the world `W`. -/
abbrev HealthCheckFunc (W : Type) := W → HealthCheckResult × W

/-- The canary predicate `func() bool`. -/
abbrev ServiceCanaryFunc (W : Type) := W → Bool × W

/-- The good-to-go predicate `func() bool`. -/
abbrev GoodToGoFunc (W : Type) := W → Bool × W

/-- The config source `func() interface{}`; `C` is the type of configuration values. -/
abbrev ConfigSourceFunc (W C : Type) := W → C × W

/-- The function `ToConfigSourceFunc`: the closure that returns `config`. -/
def ToConfigSourceFunc {W C : Type} (config : C) : ConfigSourceFunc W C :=
  fun w => (config, w)

/-- The record `BuildInfo`. -/
structure BuildInfo where
  ArtifactID : String := ""
  BuildNumber : String := ""
  BuildMachine : String := ""
  BuiltBy : String := ""
  BuiltWhen : String := ""
  GitSha1 : String := ""
  GitBranch : String := ""
  GitRepo : String := ""
  RunbookURI : String := ""
  Version : String := ""
  deriving DecidableEq

/-- The record `Status`: the embedded `BuildInfo` and the machine and runtime fields. -/
structure Status where
  BuildInfo : BuildInfo := {}
  CompilerVersion : String := ""
  CurrentTime : String := ""
  GroupID : String := ""
  MachineName : String := ""
  OSArch : String := ""
  OSAvgload : String := ""
  OSName : String := ""
  OSNumProcessor : String := ""
  OSVersion : String := ""
  UpDuration : String := ""
  UpSince : String := ""
  VMName : String := ""
  VMVendor : String := ""
  VMVersion : String := ""
  GoMaxProcs : String := ""
  GoNumRoutines : String := ""
  UpSinceTime : Time := 0
  deriving DecidableEq

/-- What `NewStandardEndpointsWithBuildInfo` reads from its host: the clock, `Uname`,
`os.Hostname` and the Go runtime. -/
structure HostReadings where
  now : Time
  nowRFC3339 : String
  hostname : String
  Machine : String
  Release : String
  Sysname : String
  Compiler : String
  NumCPU : String
  GoMaxProcs : String

/-- A `*time.Timer` made by `time.AfterFunc` in `SetHealthCheckFuncs`.  `armed = some d`:
the timer is scheduled and was last armed with delay `d`; `armed = none`: it is stopped or
has expired.  Its function is the closure of `SetHealthCheckFuncs`, fixed by the two
parameters it captures. -/
structure Timer (W : Type) where
  armed : Option Duration
  healthchecks : List (HealthCheckFunc W)
  interval : Duration

/-- The method `(*time.Timer).Stop`. -/
def Timer.Stop {W : Type} (t : Timer W) : Timer W := { t with armed := none }

/-- The method `(*time.Timer).Reset`. -/
def Timer.Reset {W : Type} (t : Timer W) (d : Duration) : Timer W := { t with armed := some d }

/-- The record `StandardEndpoints`.  The mutex `locker` is left out: its critical sections
are the atomic steps of `step`.  `healthCheckTimer` is a pointer into the timer heap. -/
structure StandardEndpoints (W C : Type) where
  Status : Status
  healthReport : HealthCheckReport
  healthChecks : List (HealthCheckFunc W)
  canaryCheck : Option (ServiceCanaryFunc W)
  gtgCheck : Option (GoodToGoFunc W)
  configSrc : Option (ConfigSourceFunc W C)
  healthCheckTimer : Option Nat

/-- One run of the timer function of `SetHealthCheckFuncs` (a tick) that has started and has
not yet published.  `healthchecks` and `interval` are the captured parameters, `start` and
`results` its local variables, `pending` the elements the `for range` loop has still to
visit.  `calls` is a history variable: the checks invoked so far, each with the world it
was invoked in. -/
structure Tick (W : Type) where
  healthchecks : List (HealthCheckFunc W)
  interval : Duration
  start : Time
  results : List HealthCheckResult
  pending : List (HealthCheckFunc W)
  calls : List (HealthCheckFunc W × W)

/-- The whole system: the shared record, the timer heap, the ticks in flight and the world.
`published` is a history variable: the ticks that completed, newest first, each with the
report it stored. -/
structure System (W C : Type) where
  se : StandardEndpoints W C
  timers : List (Timer W)
  ticks : List (Tick W)
  world : W
  published : List (Tick W × HealthCheckReport)

/-! ## Construction and setters -/

/-- The function `NewStandardEndpointsWithBuildInfo`. -/
def NewStandardEndpointsWithBuildInfo {W C : Type} (h : HostReadings) (buildInfo : BuildInfo) :
    StandardEndpoints W C :=
  let s : Status :=
    { BuildInfo := buildInfo
      UpSince := h.nowRFC3339, UpSinceTime := h.now, MachineName := h.hostname
      OSArch := h.Machine, OSVersion := h.Release, OSName := h.Sysname
      CompilerVersion := h.Compiler
      OSNumProcessor := h.NumCPU
      GoMaxProcs := h.GoMaxProcs }
  { Status := s
    healthReport := HealthCheckReport.zero
    healthChecks := []
    canaryCheck := none
    gtgCheck := none
    configSrc := none
    healthCheckTimer := none }

/-- The function `NewStandardEndpoints`. -/
def NewStandardEndpoints {W C : Type} (h : HostReadings) : StandardEndpoints W C :=
  let buildInfo : BuildInfo :=
    { ArtifactID := "undefined"
      BuildNumber := "undefined"
      BuildMachine := "undefined"
      BuiltBy := "undefined"
      BuiltWhen := "undefined"
      GitSha1 := "undefined"
      GitBranch := "undefined"
      GitRepo := "undefined"
      RunbookURI := "undefined"
      Version := "dev" }
  NewStandardEndpointsWithBuildInfo h buildInfo

/-- The system right after `NewStandardEndpoints`: no timer, no tick, nothing published. -/
def System.init {W C : Type} (h : HostReadings) (w : W) : System W C :=
  { se := NewStandardEndpoints h, timers := [], ticks := [], world := w, published := [] }

/-- The call `time.AfterFunc(d, f)` with `f` the closure over `interval` and `healthchecks`:
a new armed timer. -/
def AfterFunc {W : Type} (d : Duration) (interval : Duration)
    (healthchecks : List (HealthCheckFunc W)) : Timer W :=
  { armed := some d, healthchecks := healthchecks, interval := interval }

/-- Apply a method of `*time.Timer` through the pointer `t`; a pointer outside the heap
changes nothing. -/
def updateTimer {W : Type} (f : Timer W → Timer W) (timers : List (Timer W)) (t : Nat) :
    List (Timer W) :=
  match timers[t]? with
  | some tm => timers.set t (f tm)
  | none => timers

/-- Stop the timer at address `t` of the heap. -/
def stopTimer {W : Type} (timers : List (Timer W)) (t : Nat) : List (Timer W) :=
  updateTimer Timer.Stop timers t

/-- Reset the timer at address `t` of the heap to fire after `d`. -/
def resetTimer {W : Type} (timers : List (Timer W)) (t : Nat) (d : Duration) : List (Timer W) :=
  updateTimer (fun tm => tm.Reset d) timers t

/-- The method `SetHealthCheckFuncs`, the part that runs in the caller under the lock: store
the list, stop the held timer, and for a non-empty list create a timer that fires after 1ns. -/
def SetHealthCheckFuncs {W C : Type} (sys : System W C) (interval : Duration)
    (healthchecks : List (HealthCheckFunc W)) : System W C :=
  let se1 := { sys.se with healthChecks := healthchecks }
  let timers1 :=
    match se1.healthCheckTimer with
    | some t => stopTimer sys.timers t
    | none => sys.timers
  if healthchecks.length = 0 then
    { sys with se := se1, timers := timers1 }
  else
    { sys with
      se := { se1 with healthCheckTimer := some timers1.length }
      timers := timers1 ++ [AfterFunc 1 interval healthchecks] }

/-- The method `SetServiceCanaryFunc`. -/
def StandardEndpoints.SetServiceCanaryFunc {W C : Type} (s : StandardEndpoints W C)
    (canaryCheck : Option (ServiceCanaryFunc W)) : StandardEndpoints W C :=
  { s with canaryCheck := canaryCheck }

/-- The method `SetGoodToGoFunc`. -/
def StandardEndpoints.SetGoodToGoFunc {W C : Type} (s : StandardEndpoints W C)
    (gtgCheck : Option (GoodToGoFunc W)) : StandardEndpoints W C :=
  { s with gtgCheck := gtgCheck }

/-- The method `SetConfigSourceFunc`. -/
def StandardEndpoints.SetConfigSourceFunc {W C : Type} (s : StandardEndpoints W C)
    (configSrc : Option (ConfigSourceFunc W C)) : StandardEndpoints W C :=
  { s with configSrc := configSrc }

/-! ## The timer function and the transition system -/

/-- The function `time.Since(start)` at clock reading `now`: the difference, saturated to the
range of a signed 64-bit `time.Duration`. -/
def timeSince (start now : Time) : Duration :=
  if now - start < minInt64 then minInt64
  else if maxInt64 < now - start then maxInt64
  else now - start

/-- What one call of `generateStatus` reads from its host: the load average, the clock and
the Go runtime, with the standard formatting already applied where the value is only
formatted.  `loadAverage = none`: `GetLoadAverage` returned an error; `some text`: it
succeeded and `text` is `fmt.Sprintf("%.2f", avg.One)`.  `durationString` is the method
`String` of `time.Duration`. -/
structure StatusReadings where
  loadAverage : Option String
  now : Time
  nowRFC3339 : String
  durationString : Duration → String
  numGoroutine : String

/-- The method `generateStatus`, one critical section: it rewrites four fields of the
`Status` the record points to.  The pointer it returns is `s.Status` of the result. -/
def StandardEndpoints.generateStatus {W C : Type} (s : StandardEndpoints W C)
    (r : StatusReadings) : StandardEndpoints W C :=
  let st1 := { s.Status with OSAvgload := "0.0" }
  let st2 :=
    match r.loadAverage with
    | some text => { st1 with OSAvgload := text }
    | none => st1
  let st3 := { st2 with UpDuration := r.durationString (timeSince st2.UpSinceTime r.now) }
  let st4 := { st3 with CurrentTime := r.nowRFC3339 }
  let st5 := { st4 with GoNumRoutines := r.numGoroutine }
  { s with Status := st5 }

/-- The timer function begins: `report := HealthCheckReport{}`, `start := time.Now()`,
`var results`, and the loop is about to visit every captured check. -/
def Tick.begin {W : Type} (tm : Timer W) (now : Time) : Tick W :=
  { healthchecks := tm.healthchecks
    interval := tm.interval
    start := now
    results := []
    pending := tm.healthchecks
    calls := [] }

/-- The report the timer function assembles after its loop: `report.Results = results`,
`report.Duration = ReportDuration(time.Since(start))`, `report.Timestamp = time.Now().UTC()`.
`now1` and `now2` are the two clock readings. -/
def Tick.report {W : Type} (tk : Tick W) (now1 now2 : Time) : HealthCheckReport :=
  { Results := tk.results
    Duration := timeSince tk.start now1
    Timestamp := now2 }

/-- The atomic steps of the system. -/
inductive Action (W C : Type) where
  /-- a call of `SetHealthCheckFuncs(interval, healthchecks...)` -/
  | setHealthCheckFuncs (interval : Duration) (healthchecks : List (HealthCheckFunc W))
  /-- a call of `SetServiceCanaryFunc` (`none` is a nil function) -/
  | setServiceCanaryFunc (canaryCheck : Option (ServiceCanaryFunc W))
  /-- a call of `SetGoodToGoFunc` (`none` is a nil function) -/
  | setGoodToGoFunc (gtgCheck : Option (GoodToGoFunc W))
  /-- a call of `SetConfigSourceFunc` (`none` is a nil function) -/
  | setConfigSourceFunc (configSrc : Option (ConfigSourceFunc W C))
  /-- the armed timer at address `t` expires and its function starts in a new goroutine,
  reading the clock as `now`: a tick starts -/
  | fire (t : Nat) (now : Time)
  /-- the tick at position `k` runs one iteration of its loop -/
  | runCheck (k : Nat)
  /-- the tick at position `k`, its loop finished, assembles its report with the clock
  readings `now1` and `now2`, takes the lock, stores the report and resets the held timer:
  a tick completes -/
  | complete (k : Nat) (now1 now2 : Time)
  /-- any other code of the program changes the world -/
  | env (f : W → W)
  /-- a call of `generateStatus`, made by a request of `/status`, with its host readings -/
  | generateStatus (r : StatusReadings)

/-- One step.  `none`: the step is not enabled in this state (the timer is not armed, there
is no such tick, the loop is or is not finished), or it is the nil dereference of
`s.healthCheckTimer` in the timer function. -/
def step {W C : Type} (sys : System W C) : Action W C → Option (System W C)
  | .setHealthCheckFuncs interval healthchecks =>
      some (SetHealthCheckFuncs sys interval healthchecks)
  | .setServiceCanaryFunc f => some { sys with se := sys.se.SetServiceCanaryFunc f }
  | .setGoodToGoFunc f => some { sys with se := sys.se.SetGoodToGoFunc f }
  | .setConfigSourceFunc f => some { sys with se := sys.se.SetConfigSourceFunc f }
  | .fire t now =>
      match sys.timers[t]? with
      | none => none
      | some tm =>
          match tm.armed with
          | none => none
          | some _ =>
              some { sys with
                     timers := sys.timers.set t { tm with armed := none }
                     ticks := sys.ticks ++ [Tick.begin tm now] }
  | .runCheck k =>
      match sys.ticks[k]? with
      | none => none
      | some tk =>
          match tk.pending with
          | [] => none
          | chk :: rest =>
              let out := chk sys.world
              some { sys with
                     world := out.2
                     ticks := sys.ticks.set k
                       { tk with
                         results := tk.results ++ [out.1]
                         pending := rest
                         calls := tk.calls ++ [(chk, sys.world)] } }
  | .complete k now1 now2 =>
      match sys.ticks[k]? with
      | none => none
      | some tk =>
          match tk.pending with
          | _ :: _ => none
          | [] =>
              match sys.se.healthCheckTimer with
              | none => none
              | some t =>
                  let report := tk.report now1 now2
                  some { sys with
                         se := { sys.se with healthReport := report }
                         timers := resetTimer sys.timers t tk.interval
                         ticks := sys.ticks.eraseIdx k
                         published := (tk, report) :: sys.published }
  | .env f => some { sys with world := f sys.world }
  | .generateStatus r => some { sys with se := sys.se.generateStatus r }

/-- Run a sequence of steps; `none` as soon as one of them is not enabled. -/
def run {W C : Type} (sys : System W C) : List (Action W C) → Option (System W C)
  | [] => some sys
  | a :: as =>
      match step sys a with
      | none => none
      | some sys1 => run sys1 as

/-- The states reachable from `NewStandardEndpoints` by some interleaving of steps. -/
def Reachable {W C : Type} (sys : System W C) : Prop :=
  ∃ (h : HostReadings) (w : W) (acts : List (Action W C)), run (System.init h w) acts = some sys

/-- The system right after `NewStandardEndpointsWithBuildInfo(buildInfo)`. -/
def System.initWith {W C : Type} (h : HostReadings) (buildInfo : BuildInfo) (w : W) :
    System W C :=
  { se := NewStandardEndpointsWithBuildInfo h buildInfo, timers := [], ticks := [], world := w,
    published := [] }

/-- The states reachable from `NewStandardEndpointsWithBuildInfo(buildInfo)` by some
interleaving of steps. -/
def ReachableWith {W C : Type} (buildInfo : BuildInfo) (sys : System W C) : Prop :=
  ∃ (h : HostReadings) (w : W) (acts : List (Action W C)),
    run (System.initWith h buildInfo w) acts = some sys

/-- The action is a call of `SetHealthCheckFuncs` with a non-empty list. -/
def Action.isReconfigure {W C : Type} : Action W C → Bool
  | .setHealthCheckFuncs _ healthchecks => !healthchecks.isEmpty
  | _ => false

/-- The action is the completion of a tick. -/
def Action.isComplete {W C : Type} : Action W C → Bool
  | .complete _ _ _ => true
  | _ => false

/-- The timer the record holds, if any. -/
def System.heldTimer {W C : Type} (sys : System W C) : Option (Timer W) :=
  match sys.se.healthCheckTimer with
  | none => none
  | some t => sys.timers[t]?

/-! ## The HTTP handlers -/

/-- The data writers a `routing.Context` can hold. -/
inductive DataWriter where
  | JSON
  | HTML
  | TextPlain
  deriving DecidableEq

/-- A value handed to `c.Write`. -/
inductive Data (C : Type) where
  | str (s : String)
  | config (c : C)
  | report (r : HealthCheckReport)
  | status (s : Status)

/-- A piece of a response body: literal bytes, or the encoding of a value by a data writer
of the routing library. -/
inductive Piece (C : Type) where
  | bytes (s : String)
  | encoded (w : DataWriter) (d : Data C)

/-- The `http.ResponseWriter` as a client observes it: the Content-Type header, the status
code (200 unless `WriteHeader` said otherwise) and the body written so far. -/
structure Response (C : Type) where
  contentType : Option String
  code : Nat
  wroteHeader : Bool
  body : List (Piece C)

/-- The `routing.Context` of a request: its response and its current data writer. -/
structure Context (C : Type) where
  Response : Response C
  writer : DataWriter

/-- The call `res.Header().Set("Content-Type", v)`; it has no effect on a response whose
header is already sent. -/
def Response.setContentType {C : Type} (res : Response C) (v : String) : Response C :=
  if res.wroteHeader then res else { res with contentType := some v }

/-- The method `WriteHeader` of `http.ResponseWriter`; only the first call counts. -/
def Response.WriteHeader {C : Type} (res : Response C) (code : Nat) : Response C :=
  if res.wroteHeader then res else { res with code := code, wroteHeader := true }

/-- The method `Write` of `http.ResponseWriter`: sends the header with 200 if it is not yet
sent, then appends to the body. -/
def Response.Write {C : Type} (res : Response C) (p : Piece C) : Response C :=
  let res1 := res.WriteHeader StatusOK
  { res1 with body := res1.body ++ [p] }

/-- The method `SetHeader` of `TextPlainDataWriter`. -/
def TextPlainDataWriter.SetHeader {C : Type} (res : Response C) : Response C :=
  res.setContentType (MIME_TEXT_PLAIN ++ "; charset=UTF-8")

/-- The method `Write` of `TextPlainDataWriter`: `fmt.Sprintf("%v", data)` written as bytes.
A string formats as itself; other values are kept as encoded by this writer. -/
def TextPlainDataWriter.Write {C : Type} (res : Response C) (data : Data C) : Response C :=
  match data with
  | .str s => res.Write (.bytes s)
  | d => res.Write (.encoded .TextPlain d)

/-- The method `SetHeader` of each data writer (those of the routing library set their
MIME type). -/
def DataWriter.SetHeader {C : Type} (w : DataWriter) (res : Response C) : Response C :=
  match w with
  | .JSON => res.setContentType "application/json"
  | .HTML => res.setContentType "text/html; charset=UTF-8"
  | .TextPlain => TextPlainDataWriter.SetHeader res

/-- The method `SetDataWriter` of `routing.Context`: install the writer and let it set its
header. -/
def Context.SetDataWriter {C : Type} (c : Context C) (w : DataWriter) : Context C :=
  { c with writer := w, Response := w.SetHeader c.Response }

/-- The method `Write` of `routing.Context`: hand the value to the current data writer. -/
def Context.Write {C : Type} (c : Context C) (data : Data C) : Context C :=
  match c.writer with
  | .TextPlain => { c with Response := TextPlainDataWriter.Write c.Response data }
  | w => { c with Response := c.Response.Write (.encoded w data) }

/-- The context a handler of the group receives: a fresh response on which the middleware
`content.TypeNegotiator(routing.MIME_JSON)` has installed the JSON data writer. -/
def Context.fresh {C : Type} : Context C :=
  Context.SetDataWriter
    { Response := { contentType := none, code := StatusOK, wroteHeader := false, body := [] }
      writer := .JSON }
    .JSON

/-- The handler of `/status`: it writes the `Status` that `generateStatus` returns; the
record keeps the rewritten `Status`. -/
def statusHandler {W C : Type} (s : StandardEndpoints W C) (r : StatusReadings)
    (c : Context C) : Context C × StandardEndpoints W C :=
  let s1 := s.generateStatus r
  (c.Write (.status s1.Status), s1)

/-- The handler of `/config`. -/
def configHandler {W C : Type} (s : StandardEndpoints W C) (c : Context C) (w : W) :
    Context C × W :=
  match s.configSrc with
  | some configSrc =>
      let out := configSrc w
      (c.Write (.config out.1), out.2)
  | none => (c, w)

/-- The handler of `/healthcheck`. -/
def healthcheckHandler {W C : Type} (s : StandardEndpoints W C) (c : Context C) : Context C :=
  let c1 := { c with Response := c.Response.WriteHeader StatusOK }
  c1.Write (.report s.healthReport)

/-- The handler of `/healthcheck/gtg`. -/
def gtgHandler {W C : Type} (s : StandardEndpoints W C) (c : Context C) (w : W) :
    Context C × W :=
  let (result, w1) :=
    match s.gtgCheck with
    | some gtgCheck => gtgCheck w
    | none => (true, w)
  let c1 := { c with Response := TextPlainDataWriter.SetHeader c.Response }
  let c2 := c1.SetDataWriter .TextPlain
  if result then
    let c3 := { c2 with Response := c2.Response.WriteHeader StatusOK }
    (c3.Write (.str "OK"), w1)
  else
    ({ c2 with Response := c2.Response.WriteHeader StatusServiceUnavailable }, w1)

/-- The handler of `/healthcheck/asg`. -/
def asgHandler {W C : Type} (s : StandardEndpoints W C) (c : Context C) (w : W) :
    Context C × W :=
  let c0 := c.SetDataWriter .HTML
  let (result, w1) :=
    match s.canaryCheck with
    | some canaryCheck => canaryCheck w
    | none => (true, w)
  let c1 := { c0 with Response := TextPlainDataWriter.SetHeader c0.Response }
  let c2 := c1.SetDataWriter .TextPlain
  if result then
    let c3 := { c2 with Response := c2.Response.WriteHeader StatusOK }
    (c3.Write (.str "OK"), w1)
  else
    ({ c2 with Response := c2.Response.WriteHeader StatusServiceUnavailable }, w1)

/-! ## Invariants of the reachable states -/

/-- A tick is consistent: its captured list is not empty, the checks it has invoked followed
by those it has still to visit are that list, and its results are what the invoked checks
returned, in order. -/
def Tick.OK {W : Type} (tk : Tick W) : Prop :=
  tk.healthchecks ≠ [] ∧
  tk.calls.map Prod.fst ++ tk.pending = tk.healthchecks ∧
  tk.results = tk.calls.map (fun cw => (cw.1 cw.2).1)

/-- The invariant kept by every step. -/
structure Inv {W C : Type} (sys : System W C) : Prop where
  heldValid : ∀ t, sys.se.healthCheckTimer = some t → t < sys.timers.length
  othersIdle : ∀ j tm, sys.timers[j]? = some tm → sys.se.healthCheckTimer ≠ some j →
    tm.armed = none
  noTimerYet : sys.se.healthCheckTimer = none →
    sys.timers = [] ∧ sys.ticks = [] ∧ sys.published = []
  closures : ∀ tm ∈ sys.timers, tm.healthchecks ≠ []
  ticksOK : ∀ tk ∈ sys.ticks, tk.OK
  publishedOK : ∀ e ∈ sys.published,
    e.1.OK ∧ e.1.pending = [] ∧ ∃ now1 now2, e.2 = e.1.report now1 now2
  reportLatest : sys.se.healthReport =
    match sys.published with
    | [] => HealthCheckReport.zero
    | e :: _ => e.2

/-- The list `[c1(), ..., cn()]` of the spec: call every check once, in order, each in the
world the previous call left; returns the values and the final world. -/
def callInOrder {W : Type} : List (HealthCheckFunc W) → W → List HealthCheckResult × W
  | [], w => ([], w)
  | c :: cs, w =>
      let out := c w
      let rest := callInOrder cs out.2
      (out.1 :: rest.1, rest.2)

/-- The held timer runs the list `L` with the captured interval `i`, and no other timer is
armed. -/
def HeldRuns {W C : Type} (L : List (HealthCheckFunc W)) (i : Duration) (sys : System W C) :
    Prop :=
  ∃ t tm, sys.se.healthCheckTimer = some t ∧ sys.timers[t]? = some tm ∧
    (tm.healthchecks = L ∧ tm.interval = i) ∧
    ∀ j tm1, sys.timers[j]? = some tm1 → j ≠ t → tm1.armed = none

/-! ## Concrete runs, after `endpoints_test.go` -/

/-- The constant `time.Microsecond`. -/
def Microsecond : Duration := 1000

/-- Host readings used in the concrete runs. -/
def exHost : HostReadings :=
  { now := 1000, nowRFC3339 := "t", hostname := "h", Machine := "m", Release := "r",
    Sysname := "s", Compiler := "gc", NumCPU := "1", GoMaxProcs := "1" }

/-- A check like the first one of `TestHealthcheckEndpoint`, reporting 20 ms; the world
counts its calls, as `callCountHC1` does. -/
def exCheck1 : HealthCheckFunc Nat :=
  fun callCount =>
    ({ DurationMillis := 20, Name := "some test", Result := HealthResultPassed,
       Timestamp := 7 }, callCount + 1)

/-- A check like the second one of `TestHealthcheckEndpoint`, which returns the zero
result. -/
def exCheck2 : HealthCheckFunc Nat :=
  fun callCount => (HealthCheckResult.zero, callCount + 100)

/-- An interleaving: configure two checks, the timer fires, the tick runs both checks and
completes, the timer fires again and the second tick runs both checks. -/
def exTrace : List (Action Nat Unit) :=
  [ .setHealthCheckFuncs 5 [exCheck1, exCheck2], .fire 0 10, .runCheck 0, .runCheck 0,
    .complete 0 30 31, .fire 0 40, .runCheck 0, .runCheck 0 ]

/-- The state `exTrace` leads to. -/
def exSys : System Nat Unit :=
  match run (System.init exHost 0) exTrace with
  | some sys => sys
  | none => System.init exHost 0

/-- An interleaving that leaves a tick of `exCheck1` in flight. -/
def exTraceInFlight : List (Action Nat Unit) :=
  [ .setHealthCheckFuncs 5 [exCheck1], .fire 0 10 ]

/-- The state `exTraceInFlight` leads to. -/
def exInFlight : System Nat Unit :=
  match run (System.init exHost 0) exTraceInFlight with
  | some sys => sys
  | none => System.init exHost 0

/-- The state after `SetHealthCheckFuncs(0)` is called while that tick is in flight. -/
def exStopped : System Nat Unit := SetHealthCheckFuncs exInFlight 0 []

/-- The state after the tick in flight has then run its check and completed. -/
def exStoppedThenCompleted : System Nat Unit :=
  match run exStopped [.runCheck 0, .complete 0 20 21] with
  | some sys => sys
  | none => exStopped

/-- The state after reconfiguring `exInFlight` with `exCheck2`, the old tick finishing and
the new timer firing. -/
def exReconfigured : System Nat Unit :=
  match run (SetHealthCheckFuncs exInFlight 7 [exCheck2])
      ([.runCheck 0, .complete 0 20 21] ++ [.fire 1 30]) with
  | some sys => sys
  | none => exInFlight

/-- The build info of `example/example.go`: only `Version` and `BuiltBy` are set. -/
def exBuildInfo : BuildInfo := { Version := "0", BuiltBy := "me" }

/-- Readings of a first request of `/status`; the load average is not available. -/
def exReadings1 : StatusReadings :=
  { loadAverage := none, now := 2000, nowRFC3339 := "t1",
    durationString := fun d => toString d, numGoroutine := "3" }

/-- Readings of a later request of `/status`. -/
def exReadings2 : StatusReadings :=
  { loadAverage := some "0.25", now := 3000, nowRFC3339 := "t2",
    durationString := fun d => toString d, numGoroutine := "4" }

/-- An interleaving with two requests of `/status` around a health check tick. -/
def exTraceStatus : List (Action Nat Unit) :=
  [ .generateStatus exReadings1, .setHealthCheckFuncs 5 [exCheck1], .fire 0 10, .runCheck 0,
    .complete 0 30 31, .generateStatus exReadings2 ]

/-- The state `exTraceStatus` leads to from `NewStandardEndpointsWithBuildInfo(exBuildInfo)`. -/
def exSysStatus : System Nat Unit :=
  match run (System.initWith exHost exBuildInfo 0) exTraceStatus with
  | some sys => sys
  | none => System.initWith exHost exBuildInfo 0

/-- The state after `exInFlight` is reconfigured with interval 7 and `exCheck2`, and the
tick of `exCheck1`, started before with interval 5, has run its check and completed. -/
def exStaleInterval : System Nat Unit :=
  match run (SetHealthCheckFuncs exInFlight 7 [exCheck2]) [.runCheck 0, .complete 0 20 21] with
  | some sys => sys
  | none => exInFlight

/-- The whole interleaving that leads to `exReconfigured`. -/
def exTraceReconfigured : List (Action Nat Unit) :=
  exTraceInFlight ++
    [.setHealthCheckFuncs 7 [exCheck2], .runCheck 0, .complete 0 20 21, .fire 1 30]

/-- An interleaving in which two ticks complete, with different clock readings. -/
def exTraceTwoTicks : List (Action Nat Unit) :=
  [ .setHealthCheckFuncs 5 [exCheck1, exCheck2], .fire 0 10, .runCheck 0, .runCheck 0,
    .complete 0 30 31, .fire 0 40, .runCheck 0, .runCheck 0, .complete 0 55 57,
    .setGoodToGoFunc none, .fire 0 60 ]

/-- The state `exTraceTwoTicks` leads to. -/
def exSysTwoTicks : System Nat Unit :=
  match run (System.init exHost 0) exTraceTwoTicks with
  | some sys => sys
  | none => System.init exHost 0

/-! ## Lemmas on the timer heap -/

theorem length_updateTimer {W : Type} (f : Timer W → Timer W) (ts : List (Timer W)) (t : Nat) :
    (updateTimer f ts t).length = ts.length := by
  unfold updateTimer; split <;> simp

theorem getElem?_updateTimer {W : Type} (f : Timer W → Timer W) (ts : List (Timer W))
    (t j : Nat) :
    (updateTimer f ts t)[j]? = if j = t then ts[j]?.map f else ts[j]? := by
  unfold updateTimer
  split
  · rename_i tm h
    rw [List.getElem?_set]
    by_cases hj : j = t
    · subst hj
      have hlt : j < ts.length := (List.getElem?_eq_some.1 h).1
      simp [h, hlt]
    · have hne : ¬ t = j := fun e => hj e.symm
      simp [hj, hne]
  · rename_i h
    by_cases hj : j = t
    · subst hj; simp [h]
    · simp [hj]

theorem mem_updateTimer {W : Type} (f : Timer W → Timer W) (ts : List (Timer W)) (t : Nat)
    (tm : Timer W) (h : tm ∈ updateTimer f ts t) : tm ∈ ts ∨ ∃ tm0 ∈ ts, tm = f tm0 := by
  obtain ⟨j, hj⟩ := List.mem_iff_getElem?.1 h
  rw [getElem?_updateTimer] at hj
  by_cases hjt : j = t
  · simp only [hjt, if_true] at hj
    cases h0 : ts[t]? with
    | none => simp [h0] at hj
    | some tm0 =>
        simp [h0] at hj
        exact Or.inr ⟨tm0, List.mem_iff_getElem?.2 ⟨t, h0⟩, hj.symm⟩
  · simp only [hjt, if_false] at hj
    exact Or.inl (List.mem_iff_getElem?.2 ⟨j, hj⟩)

/-! ## The invariant holds in every reachable state -/

theorem getElem?_append_one {α : Type} (ts : List α) (x tm : α) (j : Nat)
    (h : (ts ++ [x])[j]? = some tm) :
    (j < ts.length ∧ ts[j]? = some tm) ∨ (j = ts.length ∧ tm = x) := by
  rw [List.getElem?_append] at h
  by_cases hlt : j < ts.length
  · rw [if_pos hlt] at h
    exact Or.inl ⟨hlt, h⟩
  · rw [if_neg hlt] at h
    right
    have hj : j - ts.length = 0 := by
      by_contra hc
      have hn : ([x] : List α)[j - ts.length]? = none := by
        apply List.getElem?_eq_none; simp; omega
      rw [hn] at h; cases h
    rw [hj] at h
    simp at h
    exact ⟨by omega, h.symm⟩

theorem inv_init {W C : Type} (h : HostReadings) (w : W) : Inv (System.init h w : System W C) := by
  refine ⟨?_, ?_, ?_, ?_, ?_, ?_, ?_⟩ <;>
    simp [System.init, NewStandardEndpoints, NewStandardEndpointsWithBuildInfo]

theorem inv_setHealthCheckFuncs {W C : Type} (sys : System W C) (hI : Inv sys)
    (interval : Duration) (hs : List (HealthCheckFunc W)) :
    Inv (SetHealthCheckFuncs sys interval hs) := by
  have hclos : ∀ t, ∀ tm ∈ stopTimer sys.timers t, tm.healthchecks ≠ [] := by
    intro t tm htm
    rcases mem_updateTimer _ _ _ _ htm with h | ⟨tm0, h0, rfl⟩
    · exact hI.closures tm h
    · exact hI.closures tm0 h0
  cases hheld : sys.se.healthCheckTimer with
  | none =>
    obtain ⟨ht, hk, hp⟩ := hI.noTimerYet hheld
    by_cases he : hs.length = 0
    · refine ⟨?_, ?_, ?_, ?_, ?_, ?_, ?_⟩ <;>
        simp [SetHealthCheckFuncs, he, hheld, ht, hk, hp, hI.reportLatest]
    · have hne : hs ≠ [] := fun e => he (by simp [e])
      refine ⟨?_, ?_, ?_, ?_, ?_, ?_, ?_⟩
      · simp [SetHealthCheckFuncs, he, hheld, ht]
      · intro j tm hj hnej
        simp only [SetHealthCheckFuncs, he, hheld, ht, if_false] at hj hnej
        rcases getElem?_append_one _ _ _ _ hj with ⟨hlt, _⟩ | ⟨hj0, _⟩
        · simp at hlt
        · exact absurd (by rw [hj0]) hnej
      · simp [SetHealthCheckFuncs, he, hheld]
      · simp [SetHealthCheckFuncs, he, hheld, ht, AfterFunc, hne]
      · simp [SetHealthCheckFuncs, he, hheld, hk]
      · simp [SetHealthCheckFuncs, he, hheld, hp]
      · simp [SetHealthCheckFuncs, he, hheld, hp, hI.reportLatest]
  | some t =>
    by_cases he : hs.length = 0
    · refine ⟨?_, ?_, ?_, ?_, ?_, ?_, ?_⟩
      · intro t' ht'
        simp [SetHealthCheckFuncs, he, hheld] at ht' ⊢
        subst ht'
        simpa [stopTimer, length_updateTimer] using hI.heldValid t hheld
      · intro j tm hj hne
        simp only [SetHealthCheckFuncs, he, hheld, if_true] at hj hne
        have hjt : ¬ j = t := fun e => hne (by rw [e])
        rw [stopTimer, getElem?_updateTimer, if_neg hjt] at hj
        exact hI.othersIdle j tm hj (by rw [hheld]; exact hne)
      · intro hn
        simp [SetHealthCheckFuncs, he, hheld] at hn
      · intro tm htm
        simp [SetHealthCheckFuncs, he, hheld] at htm
        exact hclos t tm htm
      · simpa [SetHealthCheckFuncs, he, hheld] using hI.ticksOK
      · simpa [SetHealthCheckFuncs, he, hheld] using hI.publishedOK
      · simpa [SetHealthCheckFuncs, he, hheld] using hI.reportLatest
    · have hne : hs ≠ [] := fun e => he (by simp [e])
      refine ⟨?_, ?_, ?_, ?_, ?_, ?_, ?_⟩
      · intro t' ht'
        simp [SetHealthCheckFuncs, he, hheld] at ht' ⊢
        omega
      · intro j tm hj hnej
        simp only [SetHealthCheckFuncs, he, hheld, if_false] at hj hnej
        rcases getElem?_append_one _ _ _ _ hj with ⟨_, hj1⟩ | ⟨hj0, _⟩
        · rw [stopTimer, getElem?_updateTimer] at hj1
          by_cases hjt : j = t
          · rw [if_pos hjt] at hj1
            cases h0 : sys.timers[j]? with
            | none => rw [h0] at hj1; cases hj1
            | some tm0 =>
                rw [h0] at hj1
                simp only [Option.map_some', Option.some.injEq] at hj1
                rw [← hj1]; rfl
          · rw [if_neg hjt] at hj1
            exact hI.othersIdle j tm hj1 (by rw [hheld]; exact fun e => hjt (Option.some.inj e).symm)
        · exact absurd (by rw [hj0]) hnej
      · intro hn
        simp [SetHealthCheckFuncs, he, hheld] at hn
      · intro tm htm
        simp [SetHealthCheckFuncs, he, hheld] at htm
        rcases htm with htm | rfl
        · exact hclos t tm htm
        · simpa [AfterFunc] using hne
      · simpa [SetHealthCheckFuncs, he, hheld] using hI.ticksOK
      · simpa [SetHealthCheckFuncs, he, hheld] using hI.publishedOK
      · simpa [SetHealthCheckFuncs, he, hheld] using hI.reportLatest

theorem inv_step {W C : Type} (sys sys1 : System W C) (a : Action W C) (hI : Inv sys)
    (hs : step sys a = some sys1) : Inv sys1 := by
  cases a with
  | setHealthCheckFuncs interval healthchecks =>
      simp only [Se4.step, Option.some.injEq] at hs
      rw [← hs]; exact inv_setHealthCheckFuncs sys hI interval healthchecks
  | setServiceCanaryFunc f =>
      simp only [Se4.step, Option.some.injEq] at hs
      rw [← hs]; exact ⟨hI.1, hI.2, hI.3, hI.4, hI.5, hI.6, hI.7⟩
  | setGoodToGoFunc f =>
      simp only [Se4.step, Option.some.injEq] at hs
      rw [← hs]; exact ⟨hI.1, hI.2, hI.3, hI.4, hI.5, hI.6, hI.7⟩
  | setConfigSourceFunc f =>
      simp only [Se4.step, Option.some.injEq] at hs
      rw [← hs]; exact ⟨hI.1, hI.2, hI.3, hI.4, hI.5, hI.6, hI.7⟩
  | env f =>
      simp only [Se4.step, Option.some.injEq] at hs
      rw [← hs]; exact ⟨hI.1, hI.2, hI.3, hI.4, hI.5, hI.6, hI.7⟩
  | generateStatus r =>
      simp only [Se4.step, Option.some.injEq] at hs
      rw [← hs]; exact ⟨hI.1, hI.2, hI.3, hI.4, hI.5, hI.6, hI.7⟩
  | fire t now =>
      simp only [Se4.step] at hs
      cases htm : sys.timers[t]? with
      | none => rw [htm] at hs; cases hs
      | some tm =>
          rw [htm] at hs
          cases harm : tm.armed with
          | none => simp [harm] at hs
          | some d =>
              simp only [harm, Option.some.injEq] at hs
              rw [← hs]
              have hmem : tm ∈ sys.timers := List.mem_iff_getElem?.2 ⟨t, htm⟩
              refine ⟨?_, ?_, ?_, ?_, ?_, ?_, hI.7⟩
              · intro t1 ht1
                simpa using hI.heldValid t1 ht1
              · intro j tm1 hj hne
                simp only [List.getElem?_set] at hj
                by_cases htj : t = j
                · rw [if_pos htj] at hj
                  split at hj
                  · cases hj; rfl
                  · cases hj
                · rw [if_neg htj] at hj
                  exact hI.othersIdle j tm1 hj hne
              · intro hn
                have := (hI.noTimerYet hn).1
                rw [this] at htm; simp at htm
              · intro tm1 h1
                rcases List.mem_or_eq_of_mem_set h1 with h2 | rfl
                · exact hI.closures tm1 h2
                · exact hI.closures tm hmem
              · intro tk htk
                rcases List.mem_append.1 htk with h1 | h1
                · exact hI.ticksOK tk h1
                · simp only [List.mem_singleton] at h1
                  subst h1
                  exact ⟨hI.closures tm hmem, by simp [Tick.begin], by simp [Tick.begin]⟩
              · exact hI.6
  | runCheck k =>
      simp only [Se4.step] at hs
      cases htk : sys.ticks[k]? with
      | none => rw [htk] at hs; cases hs
      | some tk =>
          rw [htk] at hs
          have hmem : tk ∈ sys.ticks := List.mem_iff_getElem?.2 ⟨k, htk⟩
          cases hp : tk.pending with
          | nil => simp [hp] at hs
          | cons chk rest =>
              simp only [hp, Option.some.injEq] at hs
              rw [← hs]
              refine ⟨hI.1, hI.2, ?_, hI.4, ?_, hI.6, hI.7⟩
              · intro hn
                have := (hI.noTimerYet hn).2.1
                rw [this] at htk; simp at htk
              · intro tk1 h1
                rcases List.mem_or_eq_of_mem_set h1 with h2 | rfl
                · exact hI.ticksOK tk1 h2
                · obtain ⟨h1, h2, h3⟩ := hI.ticksOK tk hmem
                  refine ⟨h1, ?_, ?_⟩
                  · rw [← h2, hp]; simp
                  · simp [h3]
  | complete k now1 now2 =>
      simp only [Se4.step] at hs
      cases htk : sys.ticks[k]? with
      | none => rw [htk] at hs; cases hs
      | some tk =>
          rw [htk] at hs
          have hmem : tk ∈ sys.ticks := List.mem_iff_getElem?.2 ⟨k, htk⟩
          cases hp : tk.pending with
          | cons chk rest => simp [hp] at hs
          | nil =>
              simp only [hp] at hs
              cases hheld : sys.se.healthCheckTimer with
              | none => simp [hheld] at hs
              | some t =>
                  simp only [hheld, Option.some.injEq] at hs
                  rw [← hs]
                  refine ⟨?_, ?_, ?_, ?_, ?_, ?_, ?_⟩
                  · intro t1 ht1
                    simp only [resetTimer, length_updateTimer]
                    exact hI.heldValid t1 (by rw [hheld]; exact ht1)
                  · intro j tm1 hj hne
                    have hne1 : ¬ j = t := fun e => hne (by simp [e])
                    simp only [resetTimer, getElem?_updateTimer, if_neg hne1] at hj
                    exact hI.othersIdle j tm1 hj (by rw [hheld]; exact fun e => hne1 (Option.some.inj e).symm)
                  · intro hn; simp at hn
                  · intro tm1 h1
                    rcases mem_updateTimer _ _ _ _ h1 with h | ⟨tm0, h0, rfl⟩
                    · exact hI.closures tm1 h
                    · exact hI.closures tm0 h0
                  · intro tk1 h1
                    exact hI.ticksOK tk1 (List.mem_of_mem_eraseIdx h1)
                  · intro e he
                    rcases List.mem_cons.1 he with rfl | h1
                    · exact ⟨hI.ticksOK tk hmem, hp, now1, now2, rfl⟩
                    · exact hI.publishedOK e h1
                  · rfl

theorem inv_run {W C : Type} (acts : List (Action W C)) :
    ∀ (sys sys1 : System W C), Inv sys → run sys acts = some sys1 → Inv sys1 := by
  induction acts with
  | nil =>
      intro sys sys1 hI h
      simp only [Se4.run, Option.some.injEq] at h
      rw [← h]; exact hI
  | cons a as ih =>
      intro sys sys1 hI h
      simp only [Se4.run] at h
      cases hst : Se4.step sys a with
      | none => rw [hst] at h; cases h
      | some sys2 =>
          rw [hst] at h
          exact ih sys2 sys1 (inv_step sys sys2 a hI hst) h

theorem inv_of_reachable {W C : Type} {sys : System W C} (h : Reachable sys) : Inv sys := by
  obtain ⟨hr, w, acts, hrun⟩ := h
  exact inv_run acts _ _ (inv_init hr w) hrun

/-! ## The held timer after a call of `SetHealthCheckFuncs` -/

theorem heldTimer_SetHealthCheckFuncs {W C : Type} (sys : System W C) (interval : Duration)
    (hs : List (HealthCheckFunc W)) (hne : hs ≠ []) :
    (SetHealthCheckFuncs sys interval hs).se.healthCheckTimer = some sys.timers.length ∧
    (SetHealthCheckFuncs sys interval hs).timers[sys.timers.length]? =
      some (AfterFunc 1 interval hs) ∧
    (SetHealthCheckFuncs sys interval hs).ticks = sys.ticks := by
  have he : ¬ hs.length = 0 := fun e => hne (List.length_eq_zero.1 e)
  cases hheld : sys.se.healthCheckTimer with
  | none => simp [SetHealthCheckFuncs, he, hheld]
  | some t =>
      have hlen : (stopTimer sys.timers t).length = sys.timers.length := by
        simp [stopTimer, length_updateTimer]
      simp only [SetHealthCheckFuncs, he, hheld, if_false, hlen, true_and, and_true]
      rw [List.getElem?_append, if_neg (by omega), hlen]
      simp

theorem run_append {W C : Type} (as bs : List (Action W C)) :
    ∀ sys : System W C, run sys (as ++ bs) = (run sys as).bind (fun s => run s bs) := by
  induction as with
  | nil => intro sys; rfl
  | cons a as ih =>
      intro sys
      simp only [List.cons_append, Se4.run]
      cases Se4.step sys a with
      | none => rfl
      | some s1 => exact ih s1

theorem set_self_of_getElem? {α : Type} (l : List α) (k : Nat) (x : α) (h : l[k]? = some x) :
    l.set k x = l := by
  apply List.ext_getElem?
  intro j
  rw [List.getElem?_set]
  by_cases hkj : k = j
  · subst hkj
    have hlt : k < l.length := (List.getElem?_eq_some.1 h).1
    simp [hlt, h]
  · simp [hkj]

theorem run_loop {W C : Type} (ps : List (HealthCheckFunc W)) :
    ∀ (sys : System W C) (k : Nat) (tk : Tick W), sys.ticks[k]? = some tk → tk.pending = ps →
      ∃ cl, run sys (List.replicate ps.length (.runCheck k)) =
        some { sys with
               world := (callInOrder ps sys.world).2
               ticks := sys.ticks.set k
                 { tk with
                   results := tk.results ++ (callInOrder ps sys.world).1
                   pending := []
                   calls := cl } } := by
  induction ps with
  | nil =>
      intro sys k tk htk hp
      refine ⟨tk.calls, ?_⟩
      have h1 : ({ tk with results := tk.results ++ [], pending := [], calls := tk.calls } : Tick W)
          = tk := by
        cases tk; simp at hp; simp [hp]
      simp only [List.length_nil, List.replicate_zero, Se4.run, callInOrder, h1,
        set_self_of_getElem? _ _ _ htk]
  | cons c cs ih =>
      intro sys k tk htk hp
      have hlt : k < sys.ticks.length := (List.getElem?_eq_some.1 htk).1
      obtain ⟨cl, hcl⟩ := ih
        ({ sys with
           world := (c sys.world).2
           ticks := sys.ticks.set k
             { tk with
               results := tk.results ++ [(c sys.world).1]
               pending := cs
               calls := tk.calls ++ [(c, sys.world)] } } : System W C) k
        { tk with
          results := tk.results ++ [(c sys.world).1]
          pending := cs
          calls := tk.calls ++ [(c, sys.world)] }
        (by simp [List.getElem?_set, hlt]) rfl
      refine ⟨cl, ?_⟩
      simp only [List.length_cons, List.replicate_succ, Se4.run, Se4.step, htk, hp]
      rw [hcl]
      simp [callInOrder, List.set_set]


theorem world_SetHealthCheckFuncs {W C : Type} (sys : System W C) (interval : Duration)
    (hs : List (HealthCheckFunc W)) :
    (SetHealthCheckFuncs sys interval hs).world = sys.world := by
  unfold SetHealthCheckFuncs
  split <;> rfl

theorem tick_runs_to_completion {W C : Type} (sys : System W C) (interval : Duration)
    (hs : List (HealthCheckFunc W)) (hne : hs ≠ []) (now now1 now2 : Time) :
    ∃ sys4,
      run (SetHealthCheckFuncs sys interval hs)
        ([.fire sys.timers.length now] ++
          (List.replicate hs.length (.runCheck sys.ticks.length) ++
            [.complete sys.ticks.length now1 now2])) = some sys4 ∧
      sys4.se.healthReport =
        { Timestamp := now2, Duration := timeSince now now1,
          Results := (callInOrder hs sys.world).1 } ∧
      sys4.world = (callInOrder hs sys.world).2 := by
  obtain ⟨h1, h2, h3⟩ := heldTimer_SetHealthCheckFuncs sys interval hs hne
  have hw := world_SetHealthCheckFuncs sys interval hs
  have hfire : step (SetHealthCheckFuncs sys interval hs) (.fire sys.timers.length now) =
      some { SetHealthCheckFuncs sys interval hs with
             timers := (SetHealthCheckFuncs sys interval hs).timers.set sys.timers.length
               { AfterFunc 1 interval hs with armed := none }
             ticks := (SetHealthCheckFuncs sys interval hs).ticks ++
               [Tick.begin (AfterFunc 1 interval hs) now] } := by
    simp only [Se4.step, h2, AfterFunc]
  obtain ⟨cl, hloop⟩ := run_loop hs
    ({ SetHealthCheckFuncs sys interval hs with
       timers := (SetHealthCheckFuncs sys interval hs).timers.set sys.timers.length
         { AfterFunc 1 interval hs with armed := none }
       ticks := (SetHealthCheckFuncs sys interval hs).ticks ++
         [Tick.begin (AfterFunc 1 interval hs) now] } : System W C)
    sys.ticks.length (Tick.begin (AfterFunc 1 interval hs) now)
    (by simp [h3]) rfl
  rw [run_append, Se4.run, hfire]
  simp only [Se4.run, Option.some_bind]
  rw [run_append, hloop]
  simp only [Option.some_bind, Se4.run, Se4.step]
  have hlt : sys.ticks.length <
      ((SetHealthCheckFuncs sys interval hs).ticks ++
        [Tick.begin (AfterFunc 1 interval hs) now]).length := by
    simp [h3]
  simp only [List.getElem?_set, hlt, if_true, h1]
  refine ⟨_, rfl, ?_, ?_⟩
  · simp [Tick.report, Tick.begin, hw]
  · simp [hw]

theorem heldRuns_step {W C : Type} (L : List (HealthCheckFunc W)) (i : Duration)
    (sys sys1 : System W C) (a : Action W C) (hH : HeldRuns L i sys) (ha : a.isReconfigure = false)
    (hs : step sys a = some sys1) : HeldRuns L i sys1 := by
  obtain ⟨t, tm, hheld, htm, hL, hidle⟩ := hH
  cases a with
  | setHealthCheckFuncs interval healthchecks =>
      have he : healthchecks = [] := by
        cases healthchecks with
        | nil => rfl
        | cons x xs => simp [Action.isReconfigure] at ha
      subst he
      simp only [Se4.step, Option.some.injEq] at hs
      rw [← hs]
      refine ⟨t, tm.Stop, ?_, ?_, hL, ?_⟩
      · simp [SetHealthCheckFuncs, hheld]
      · simp [SetHealthCheckFuncs, hheld, stopTimer, getElem?_updateTimer, htm]
      · intro j tm1 hj hne
        simp only [SetHealthCheckFuncs, hheld, List.length_nil, if_true, stopTimer,
          getElem?_updateTimer, if_neg hne] at hj
        exact hidle j tm1 hj hne
  | setServiceCanaryFunc f =>
      simp only [Se4.step, Option.some.injEq] at hs
      rw [← hs]; exact ⟨t, tm, hheld, htm, hL, hidle⟩
  | setGoodToGoFunc f =>
      simp only [Se4.step, Option.some.injEq] at hs
      rw [← hs]; exact ⟨t, tm, hheld, htm, hL, hidle⟩
  | setConfigSourceFunc f =>
      simp only [Se4.step, Option.some.injEq] at hs
      rw [← hs]; exact ⟨t, tm, hheld, htm, hL, hidle⟩
  | env f =>
      simp only [Se4.step, Option.some.injEq] at hs
      rw [← hs]; exact ⟨t, tm, hheld, htm, hL, hidle⟩
  | generateStatus r =>
      simp only [Se4.step, Option.some.injEq] at hs
      rw [← hs]; exact ⟨t, tm, hheld, htm, hL, hidle⟩
  | runCheck k =>
      simp only [Se4.step] at hs
      cases htk : sys.ticks[k]? with
      | none => rw [htk] at hs; cases hs
      | some tk =>
          rw [htk] at hs
          cases hp : tk.pending with
          | nil => simp [hp] at hs
          | cons chk rest =>
              simp only [hp, Option.some.injEq] at hs
              rw [← hs]; exact ⟨t, tm, hheld, htm, hL, hidle⟩
  | fire t1 now =>
      simp only [Se4.step] at hs
      cases htm1 : sys.timers[t1]? with
      | none => rw [htm1] at hs; cases hs
      | some tm1 =>
          rw [htm1] at hs
          cases harm : tm1.armed with
          | none => simp [harm] at hs
          | some d =>
              simp only [harm, Option.some.injEq] at hs
              rw [← hs]
              have ht1 : t1 = t := by
                by_contra hne
                have := hidle t1 tm1 htm1 hne
                rw [harm] at this; cases this
              subst ht1
              rw [htm] at htm1
              simp only [Option.some.injEq] at htm1
              subst htm1
              have hlt : t1 < sys.timers.length := (List.getElem?_eq_some.1 htm).1
              refine ⟨t1, { tm with armed := none }, hheld, ?_, hL, ?_⟩
              · simp [List.getElem?_set, hlt]
              · intro j tm2 hj hne
                have hne1 : ¬ t1 = j := fun e => hne e.symm
                simp only [List.getElem?_set, if_neg hne1] at hj
                exact hidle j tm2 hj hne
  | complete k now1 now2 =>
      simp only [Se4.step] at hs
      cases htk : sys.ticks[k]? with
      | none => rw [htk] at hs; cases hs
      | some tk =>
          rw [htk] at hs
          cases hp : tk.pending with
          | cons chk rest => simp [hp] at hs
          | nil =>
              simp only [hp, hheld, Option.some.injEq] at hs
              rw [← hs]
              refine ⟨t, tm.Reset tk.interval, rfl, ?_, hL, ?_⟩
              · simp [resetTimer, getElem?_updateTimer, htm]
              · intro j tm1 hj hne
                simp only [resetTimer, getElem?_updateTimer, if_neg hne] at hj
                exact hidle j tm1 hj hne

theorem heldRuns_run {W C : Type} (L : List (HealthCheckFunc W)) (i : Duration)
    (acts : List (Action W C)) :
    ∀ (sys sys1 : System W C), HeldRuns L i sys → (∀ a ∈ acts, a.isReconfigure = false) →
      run sys acts = some sys1 → HeldRuns L i sys1 := by
  induction acts with
  | nil =>
      intro sys sys1 hH _ h
      simp only [Se4.run, Option.some.injEq] at h
      rw [← h]; exact hH
  | cons a as ih =>
      intro sys sys1 hH hall h
      simp only [Se4.run] at h
      cases hst : Se4.step sys a with
      | none => rw [hst] at h; cases h
      | some sys2 =>
          rw [hst] at h
          exact ih sys2 sys1
            (heldRuns_step L i sys sys2 a hH (hall a (List.mem_cons_self _ _)) hst)
            (fun b hb => hall b (List.mem_cons_of_mem _ hb)) h

theorem heldRuns_afterSet {W C : Type} (sys : System W C) (hI : Inv sys) (interval : Duration)
    (hs : List (HealthCheckFunc W)) (hne : hs ≠ []) :
    HeldRuns hs interval (SetHealthCheckFuncs sys interval hs) := by
  obtain ⟨h1, h2, _⟩ := heldTimer_SetHealthCheckFuncs sys interval hs hne
  have hI1 := inv_setHealthCheckFuncs sys hI interval hs
  refine ⟨sys.timers.length, AfterFunc 1 interval hs, h1, h2, ⟨rfl, rfl⟩, ?_⟩
  intro j tm1 hj hnej
  exact hI1.othersIdle j tm1 hj (by rw [h1]; exact fun e => hnej (Option.some.inj e).symm)

/-! ## The build info and the armed timers -/

theorem buildInfo_step {W C : Type} (sys sys1 : System W C) (a : Action W C)
    (hs : step sys a = some sys1) : sys1.se.Status.BuildInfo = sys.se.Status.BuildInfo := by
  cases a with
  | setHealthCheckFuncs interval healthchecks =>
      simp only [Se4.step, Option.some.injEq] at hs
      rw [← hs]; unfold SetHealthCheckFuncs; split <;> rfl
  | setServiceCanaryFunc f => simp only [Se4.step, Option.some.injEq] at hs; rw [← hs]; rfl
  | setGoodToGoFunc f => simp only [Se4.step, Option.some.injEq] at hs; rw [← hs]; rfl
  | setConfigSourceFunc f => simp only [Se4.step, Option.some.injEq] at hs; rw [← hs]; rfl
  | env f => simp only [Se4.step, Option.some.injEq] at hs; rw [← hs]
  | generateStatus r =>
      simp only [Se4.step, Option.some.injEq] at hs
      rw [← hs]
      simp only [StandardEndpoints.generateStatus]
      split <;> rfl
  | fire t now =>
      simp only [Se4.step] at hs
      cases htm : sys.timers[t]? with
      | none => rw [htm] at hs; cases hs
      | some tm =>
          rw [htm] at hs
          cases harm : tm.armed with
          | none => simp [harm] at hs
          | some d => simp only [harm, Option.some.injEq] at hs; rw [← hs]
  | runCheck k =>
      simp only [Se4.step] at hs
      cases htk : sys.ticks[k]? with
      | none => rw [htk] at hs; cases hs
      | some tk =>
          rw [htk] at hs
          cases hp : tk.pending with
          | nil => simp [hp] at hs
          | cons chk rest => simp only [hp, Option.some.injEq] at hs; rw [← hs]
  | complete k now1 now2 =>
      simp only [Se4.step] at hs
      cases htk : sys.ticks[k]? with
      | none => rw [htk] at hs; cases hs
      | some tk =>
          rw [htk] at hs
          cases hp : tk.pending with
          | cons chk rest => simp [hp] at hs
          | nil =>
              simp only [hp] at hs
              cases hheld : sys.se.healthCheckTimer with
              | none => simp [hheld] at hs
              | some t => simp only [hheld, Option.some.injEq] at hs; rw [← hs]

theorem buildInfo_run {W C : Type} (acts : List (Action W C)) :
    ∀ (sys sys1 : System W C), run sys acts = some sys1 →
      sys1.se.Status.BuildInfo = sys.se.Status.BuildInfo := by
  induction acts with
  | nil =>
      intro sys sys1 h
      simp only [Se4.run, Option.some.injEq] at h
      rw [← h]
  | cons a as ih =>
      intro sys sys1 h
      simp only [Se4.run] at h
      cases hst : Se4.step sys a with
      | none => rw [hst] at h; cases h
      | some sys2 =>
          rw [hst] at h
          rw [ih sys2 sys1 h, buildInfo_step sys sys2 a hst]

theorem filter_length_le_one {α : Type} (p : α → Bool) :
    ∀ (l : List α), (∀ (i j : Nat) (x y : α), l[i]? = some x → l[j]? = some y → p x = true →
      p y = true → i = j) → (l.filter p).length ≤ 1 := by
  intro l
  induction l with
  | nil => intro _; simp
  | cons a l ih =>
      intro h
      have hl : ∀ (i j : Nat) (x y : α), l[i]? = some x → l[j]? = some y → p x = true →
          p y = true → i = j := by
        intro i j x y hi hj hx hy
        have := h (i + 1) (j + 1) x y (by simpa using hi) (by simpa using hj) hx hy
        omega
      cases hpa : p a with
      | false =>
          rw [List.filter_cons_of_neg (by simp [hpa])]
          exact ih hl
      | true =>
          rw [List.filter_cons_of_pos hpa]
          have hnil : l.filter p = [] := by
            rw [List.filter_eq_nil_iff]
            intro y hy hpy
            obtain ⟨j, hj⟩ := List.mem_iff_getElem?.1 hy
            have := h 0 (j + 1) a y (by simp) (by simpa using hj) hpa hpy
            omega
          simp [hnil]

/-! ## The stored report along a run -/

theorem report_step_frame {W C : Type} (sys sys1 : System W C) (a : Action W C)
    (hs : step sys a = some sys1) (ha : a.isComplete = false) :
    sys1.se.healthReport = sys.se.healthReport ∧ sys1.published = sys.published := by
  cases a with
  | setHealthCheckFuncs interval healthchecks =>
      simp only [Se4.step, Option.some.injEq] at hs
      rw [← hs]; unfold SetHealthCheckFuncs; split <;> exact ⟨rfl, rfl⟩
  | setServiceCanaryFunc f =>
      simp only [Se4.step, Option.some.injEq] at hs; rw [← hs]; exact ⟨rfl, rfl⟩
  | setGoodToGoFunc f =>
      simp only [Se4.step, Option.some.injEq] at hs; rw [← hs]; exact ⟨rfl, rfl⟩
  | setConfigSourceFunc f =>
      simp only [Se4.step, Option.some.injEq] at hs; rw [← hs]; exact ⟨rfl, rfl⟩
  | env f => simp only [Se4.step, Option.some.injEq] at hs; rw [← hs]; exact ⟨rfl, rfl⟩
  | generateStatus r =>
      simp only [Se4.step, Option.some.injEq] at hs; rw [← hs]; exact ⟨rfl, rfl⟩
  | fire t now =>
      simp only [Se4.step] at hs
      cases htm : sys.timers[t]? with
      | none => rw [htm] at hs; cases hs
      | some tm =>
          rw [htm] at hs
          cases harm : tm.armed with
          | none => simp [harm] at hs
          | some d => simp only [harm, Option.some.injEq] at hs; rw [← hs]; exact ⟨rfl, rfl⟩
  | runCheck k =>
      simp only [Se4.step] at hs
      cases htk : sys.ticks[k]? with
      | none => rw [htk] at hs; cases hs
      | some tk =>
          rw [htk] at hs
          cases hp : tk.pending with
          | nil => simp [hp] at hs
          | cons chk rest =>
              simp only [hp, Option.some.injEq] at hs; rw [← hs]; exact ⟨rfl, rfl⟩
  | complete k now1 now2 => simp [Action.isComplete] at ha

theorem report_run_frame {W C : Type} (acts : List (Action W C)) :
    ∀ (sys sys1 : System W C), run sys acts = some sys1 →
      acts.all (fun a => !a.isComplete) = true →
      sys1.se.healthReport = sys.se.healthReport ∧ sys1.published = sys.published := by
  induction acts with
  | nil =>
      intro sys sys1 h _
      simp only [Se4.run, Option.some.injEq] at h
      rw [← h]; exact ⟨rfl, rfl⟩
  | cons a as ih =>
      intro sys sys1 h hall
      simp only [List.all_cons, Bool.and_eq_true, Bool.not_eq_true'] at hall
      simp only [Se4.run] at h
      cases hst : Se4.step sys a with
      | none => rw [hst] at h; cases h
      | some sys2 =>
          rw [hst] at h
          obtain ⟨h1, h2⟩ := ih sys2 sys1 h hall.2
          obtain ⟨h3, h4⟩ := report_step_frame sys sys2 a hst hall.1
          exact ⟨h1.trans h3, h2.trans h4⟩

theorem last_complete_split {W C : Type} (acts : List (Action W C)) :
    acts.all (fun a => !a.isComplete) = true ∨
    ∃ pre k now1 now2 post, acts = pre ++ Action.complete k now1 now2 :: post ∧
      post.all (fun a => !a.isComplete) = true := by
  induction acts with
  | nil => left; rfl
  | cons a as ih =>
      rcases ih with hall | ⟨pre, k, now1, now2, post, hsplit, hpost⟩
      · cases ha : a.isComplete with
        | false => left; simp [List.all_cons, ha, hall]
        | true =>
            right
            cases a with
            | complete k now1 now2 => exact ⟨[], k, now1, now2, as, rfl, hall⟩
            | setHealthCheckFuncs _ _ => simp [Action.isComplete] at ha
            | setServiceCanaryFunc _ => simp [Action.isComplete] at ha
            | setGoodToGoFunc _ => simp [Action.isComplete] at ha
            | setConfigSourceFunc _ => simp [Action.isComplete] at ha
            | fire _ _ => simp [Action.isComplete] at ha
            | runCheck _ => simp [Action.isComplete] at ha
            | env _ => simp [Action.isComplete] at ha
            | generateStatus _ => simp [Action.isComplete] at ha
      · right
        exact ⟨a :: pre, k, now1, now2, post, by rw [hsplit]; rfl, hpost⟩

theorem complete_step_report {W C : Type} (sys sys1 : System W C) (k : Nat) (now1 now2 : Time)
    (hs : step sys (.complete k now1 now2) = some sys1) :
    ∃ tk, sys.ticks[k]? = some tk ∧ tk.pending = [] ∧
      sys1.se.healthReport =
        { Timestamp := now2
          Duration :=
            if now1 - tk.start < -9223372036854775808 then -9223372036854775808
            else if 9223372036854775807 < now1 - tk.start then 9223372036854775807
            else now1 - tk.start
          Results := tk.results } ∧
      sys1.published = (tk, sys1.se.healthReport) :: sys.published := by
  simp only [Se4.step] at hs
  cases htk : sys.ticks[k]? with
  | none => rw [htk] at hs; cases hs
  | some tk =>
      rw [htk] at hs
      cases hp : tk.pending with
      | cons chk rest => simp [hp] at hs
      | nil =>
          simp only [hp] at hs
          cases hheld : sys.se.healthCheckTimer with
          | none => simp [hheld] at hs
          | some t =>
              simp only [hheld, Option.some.injEq] at hs
              rw [← hs]
              refine ⟨tk, rfl, hp, ?_, rfl⟩
              have h1 : minInt64 = -9223372036854775808 := by decide
              have h2 : maxInt64 = 9223372036854775807 := by decide
              simp only [Tick.report, timeSince, h1, h2]

/-! ## The float64 rounding -/

theorem roundHalfEven_eq_of_near (y : ℚ) (k : ℤ) (h : |y - k| < 1 / 2) : roundHalfEven y = k := by
  rw [abs_lt] at h
  obtain ⟨h1, h2⟩ := h
  unfold roundHalfEven
  simp only
  by_cases hk : (k : ℚ) ≤ y
  · have hf : ⌊y⌋ = k := by
      rw [Int.floor_eq_iff]; constructor <;> linarith
    rw [hf, if_pos h2]
  · have hf : ⌊y⌋ = k - 1 := by
      rw [Int.floor_eq_iff]; push_cast; constructor <;> linarith
    rw [hf]
    push_cast
    rw [if_neg (by linarith), if_pos (by linarith)]
    ring

theorem roundHalfEven_intCast (n : ℤ) : roundHalfEven (n : ℚ) = n :=
  roundHalfEven_eq_of_near _ n (by simp)

theorem abs_roundHalfEven_sub_le (y : ℚ) : |(roundHalfEven y : ℚ) - y| ≤ 1 / 2 := by
  have h1 := Int.floor_le y
  have h2 := Int.lt_floor_add_one y
  unfold roundHalfEven
  simp only
  rw [abs_le]
  split_ifs with ha hb hc
  · constructor <;> linarith
  · push_cast; constructor <;> linarith
  · constructor <;> linarith
  · push_cast; constructor <;> linarith

theorem abs_roundHalfEven_le (y : ℚ) (N : ℤ) (h : |y| ≤ N) : |roundHalfEven y| ≤ N := by
  rw [abs_le] at h
  obtain ⟨h3, h4⟩ := h
  have h1 := Int.floor_le y
  have h2 := Int.lt_floor_add_one y
  have hlo : -N ≤ ⌊y⌋ := by
    rw [Int.le_floor]; push_cast; exact h3
  have hhi : ⌊y⌋ ≤ N := by
    have : (⌊y⌋ : ℚ) ≤ N := le_trans h1 h4
    exact_mod_cast this
  unfold roundHalfEven
  simp only
  rw [abs_le]
  have hstrict : (0 : ℚ) < y - ⌊y⌋ → ⌊y⌋ + 1 ≤ N := by
    intro hpos
    have : (⌊y⌋ : ℚ) < N := by linarith
    have : ⌊y⌋ < N := by exact_mod_cast this
    omega
  split_ifs with ha hb hc
  · exact ⟨hlo, hhi⟩
  · exact ⟨by omega, hstrict (by linarith)⟩
  · exact ⟨hlo, hhi⟩
  · exact ⟨by omega, hstrict (by linarith)⟩


theorem two_zpow_log_le {x : ℚ} (hx : 0 < x) : (2 : ℚ) ^ Int.log 2 x ≤ x := by
  have h := Int.zpow_log_le_self (R := ℚ) (b := 2) (by norm_num) hx
  simpa using h

theorem lt_two_zpow_log_succ (x : ℚ) : x < (2 : ℚ) ^ (Int.log 2 x + 1) := by
  have h := Int.lt_zpow_succ_log_self (R := ℚ) (b := 2) (by norm_num) x
  simpa using h

theorem log_lt_of_lt_two_zpow {x : ℚ} (hx : 0 < x) {n : ℤ} (h : x < (2 : ℚ) ^ n) :
    Int.log 2 x < n := by
  have h1 := (Int.lt_zpow_iff_log_lt (R := ℚ) (b := 2) (by norm_num) (x := n) hx).1
  apply h1
  simpa using h

theorem le_log_of_two_zpow_le {x : ℚ} (hx : 0 < x) {n : ℤ} (h : (2 : ℚ) ^ n ≤ x) :
    n ≤ Int.log 2 x := by
  have h1 := (Int.zpow_le_iff_le_log (R := ℚ) (b := 2) (by norm_num) (x := n) hx).1
  apply h1
  simpa using h

theorem two_zpow_pos (n : ℤ) : (0 : ℚ) < 2 ^ n := zpow_pos (by norm_num) n

theorem two_zpow_le {m n : ℤ} (h : m ≤ n) : (2 : ℚ) ^ m ≤ 2 ^ n :=
  zpow_le_zpow_right₀ (by norm_num) h

theorem two_zpow_sub (m n : ℤ) : (2 : ℚ) ^ (m - n) = 2 ^ m / 2 ^ n :=
  zpow_sub₀ (by norm_num) m n

theorem abs_roundFloat64_sub_le (x : ℚ) :
    |roundFloat64 x - x| ≤ 2 ^ (float64Exponent x - 53) := by
  unfold roundFloat64
  split_ifs with h0
  · rw [h0]; simp only [sub_zero, abs_zero]; exact le_of_lt (two_zpow_pos _)
  · have hu := two_zpow_pos (float64Exponent x - 52)
    have hr := abs_roundHalfEven_sub_le (x / 2 ^ (float64Exponent x - 52))
    have heq : (roundHalfEven (x / 2 ^ (float64Exponent x - 52)) : ℚ) *
        2 ^ (float64Exponent x - 52) - x =
        ((roundHalfEven (x / 2 ^ (float64Exponent x - 52)) : ℚ) -
          x / 2 ^ (float64Exponent x - 52)) * 2 ^ (float64Exponent x - 52) := by
      field_simp
    rw [heq, abs_mul, abs_of_pos hu]
    have h53 : (2 : ℚ) ^ (float64Exponent x - 53) = 1 / 2 * 2 ^ (float64Exponent x - 52) := by
      have : float64Exponent x - 53 = (float64Exponent x - 52) - 1 := by ring
      rw [this, two_zpow_sub]; simp; ring
    rw [h53]
    exact mul_le_mul_of_nonneg_right hr (le_of_lt hu)

theorem float64Exponent_eq_log {x : ℚ} (h : (2 : ℚ) ^ (-1022 : ℤ) ≤ |x|) :
    float64Exponent x = Int.log 2 |x| := by
  have hx : 0 < |x| := lt_of_lt_of_le (two_zpow_pos _) h
  unfold float64Exponent
  exact max_eq_left (le_log_of_two_zpow_le hx h)

theorem abs_roundFloat64_sub_le_rel {x : ℚ} (h : (2 : ℚ) ^ (-1022 : ℤ) ≤ |x|) :
    |roundFloat64 x - x| ≤ |x| / 2 ^ 53 := by
  have hx : 0 < |x| := lt_of_lt_of_le (two_zpow_pos _) h
  have h1 := abs_roundFloat64_sub_le x
  rw [float64Exponent_eq_log h, two_zpow_sub] at h1
  have h2 := two_zpow_log_le hx
  have h3 : (2 : ℚ) ^ (53 : ℤ) = 2 ^ 53 := by norm_cast
  rw [h3] at h1
  exact le_trans h1 (div_le_div_of_nonneg_right h2 (by positivity))


theorem log_eq_of_bounds {x : ℚ} {e : ℤ} (hlo : (2 : ℚ) ^ e ≤ x) (hhi : x < 2 ^ (e + 1)) :
    Int.log 2 x = e := by
  have hx : 0 < x := lt_of_lt_of_le (two_zpow_pos _) hlo
  have h1 := le_log_of_two_zpow_le hx hlo
  have h2 := log_lt_of_lt_two_zpow hx hhi
  omega

theorem roundFloat64_eq (x : ℚ) (e k : ℤ) (he : -1022 ≤ e) (hlo : (2 : ℚ) ^ e ≤ |x|)
    (hhi : |x| < 2 ^ (e + 1)) (hk : |x / 2 ^ (e - 52) - k| < 1 / 2) :
    roundFloat64 x = k * 2 ^ (e - 52) := by
  have hx : 0 < |x| := lt_of_lt_of_le (two_zpow_pos _) hlo
  have hx0 : x ≠ 0 := abs_pos.1 hx
  have hexp : float64Exponent x = e := by
    unfold float64Exponent
    rw [log_eq_of_bounds hlo hhi]
    exact max_eq_left he
  unfold roundFloat64
  rw [if_neg hx0, hexp, roundHalfEven_eq_of_near _ k hk]

theorem roundFloat64_of_div_eq (x : ℚ) (m : ℤ)
    (h : x / 2 ^ (float64Exponent x - 52) = m) : roundFloat64 x = x := by
  unfold roundFloat64
  split_ifs with h0
  · exact h0.symm
  · rw [h, roundHalfEven_intCast, ← h]
    have hu := two_zpow_pos (float64Exponent x - 52)
    field_simp

theorem roundFloat64_of_representable (k j : ℤ) (hk : |k| ≤ 2 ^ 53) (hj : -1074 ≤ j) :
    roundFloat64 ((k : ℚ) * 2 ^ j) = (k : ℚ) * 2 ^ j := by
  by_cases hk0 : k = 0
  · subst hk0; simp [roundFloat64]
  have hkq : (0 : ℚ) < |(k : ℚ)| := abs_pos.2 (by exact_mod_cast hk0)
  have habs : |(k : ℚ) * 2 ^ j| = |(k : ℚ)| * 2 ^ j := by
    rw [abs_mul, abs_of_pos (two_zpow_pos j)]
  have hpos : (0 : ℚ) < |(k : ℚ) * 2 ^ j| := by
    rw [habs]; exact mul_pos hkq (two_zpow_pos j)
  rcases lt_or_eq_of_le hk with hlt | heq
  · -- fewer than 54 bits: the exponent is at most `j + 52`
    have hltq : |(k : ℚ)| < 2 ^ (53 : ℤ) := by
      have h : ((|k| : ℤ) : ℚ) < ((2 ^ 53 : ℤ) : ℚ) := Int.cast_lt.2 hlt
      have h53 : ((2 ^ 53 : ℤ) : ℚ) = (2 : ℚ) ^ (53 : ℤ) := by norm_num
      rw [Int.cast_abs, h53] at h
      exact h
    have hx : |(k : ℚ) * 2 ^ j| < 2 ^ (53 + j) := by
      rw [habs, zpow_add₀ (by norm_num : (2 : ℚ) ≠ 0)]
      exact mul_lt_mul_of_pos_right hltq (two_zpow_pos j)
    have hlog := log_lt_of_lt_two_zpow hpos hx
    have he : float64Exponent ((k : ℚ) * 2 ^ j) ≤ 52 + j := by
      unfold float64Exponent
      exact max_le (by omega) (by omega)
    obtain ⟨n, hn⟩ := Int.eq_ofNat_of_zero_le
      (show 0 ≤ j - (float64Exponent ((k : ℚ) * 2 ^ j) - 52) by omega)
    apply roundFloat64_of_div_eq _ (k * 2 ^ n)
    rw [mul_div_assoc, ← two_zpow_sub, hn]
    push_cast
    rw [zpow_natCast]
  · -- exactly `2 ^ 53` in magnitude: a power of two
    have hkq2 : |(k : ℚ)| = 2 ^ (53 : ℤ) := by
      have h : ((|k| : ℤ) : ℚ) = ((2 ^ 53 : ℤ) : ℚ) := by rw [heq]
      have h53 : ((2 ^ 53 : ℤ) : ℚ) = (2 : ℚ) ^ (53 : ℤ) := by norm_num
      rw [Int.cast_abs, h53] at h
      exact h
    have hxe : |(k : ℚ) * 2 ^ j| = 2 ^ (53 + j) := by
      rw [habs, hkq2, zpow_add₀ (by norm_num : (2 : ℚ) ≠ 0)]
    have hlog : Int.log 2 |(k : ℚ) * 2 ^ j| = 53 + j :=
      log_eq_of_bounds (le_of_eq hxe.symm)
        (by rw [hxe]; exact zpow_lt_zpow_right₀ (by norm_num) (by omega))
    have he : float64Exponent ((k : ℚ) * 2 ^ j) = 53 + j := by
      unfold float64Exponent
      rw [hlog]; exact max_eq_left (by omega)
    have hdiv : (k : ℚ) = ((k / 2 : ℤ) : ℚ) * 2 := by
      rcases abs_eq (by norm_num : (0 : ℤ) ≤ 2 ^ 53) |>.1 heq with h1 | h1 <;>
        · rw [h1]; norm_num
    apply roundFloat64_of_div_eq _ (k / 2)
    rw [he]
    have h1 : (53 + j - 52 : ℤ) = j + 1 := by ring
    rw [h1, zpow_add₀ (by norm_num : (2 : ℚ) ≠ 0), zpow_one]
    have hu := two_zpow_pos j
    rw [hdiv]
    field_simp
    ring


theorem roundFloat64_idem (x : ℚ) : roundFloat64 (roundFloat64 x) = roundFloat64 x := by
  by_cases h0 : x = 0
  · subst h0; simp [roundFloat64]
  have hx : 0 < |x| := abs_pos.2 h0
  have hform : roundFloat64 x =
      (roundHalfEven (x / 2 ^ (float64Exponent x - 52)) : ℚ) * 2 ^ (float64Exponent x - 52) := by
    unfold roundFloat64; rw [if_neg h0]
  have he : -1022 ≤ float64Exponent x := le_max_right _ _
  have hlog : Int.log 2 |x| ≤ float64Exponent x := le_max_left _ _
  have hu := two_zpow_pos (float64Exponent x - 52)
  have hlt : |x| < 2 ^ (float64Exponent x + 1) :=
    lt_of_lt_of_le (lt_two_zpow_log_succ |x|) (two_zpow_le (by omega))
  have hy : |x / 2 ^ (float64Exponent x - 52)| ≤ ((2 ^ 53 : ℤ) : ℚ) := by
    rw [abs_div, abs_of_pos hu, div_le_iff₀ hu]
    have h53 : ((2 ^ 53 : ℤ) : ℚ) = (2 : ℚ) ^ (53 : ℤ) := by norm_num
    rw [h53, ← zpow_add₀ (by norm_num : (2 : ℚ) ≠ 0)]
    have : (53 : ℤ) + (float64Exponent x - 52) = float64Exponent x + 1 := by ring
    rw [this]
    exact le_of_lt hlt
  have hk := abs_roundHalfEven_le _ _ hy
  rw [hform]
  exact roundFloat64_of_representable _ _ hk (by omega)

theorem roundFloat64_intCast (n : ℤ) (h : |n| ≤ 2 ^ 53) : roundFloat64 (n : ℚ) = n := by
  have := roundFloat64_of_representable n 0 h (by norm_num)
  simpa using this

theorem roundHalfEven_tie_even (k : ℤ) (hk : k % 2 = 0) :
    roundHalfEven ((k : ℚ) + 1 / 2) = k := by
  have hf : ⌊(k : ℚ) + 1 / 2⌋ = k := by
    rw [Int.floor_eq_iff]; constructor <;> linarith
  unfold roundHalfEven
  simp only
  rw [hf, if_neg (by linarith), if_neg (by linarith), if_pos hk]

theorem roundFloat64_eq_of_round (x : ℚ) (e k : ℤ) (he : -1022 ≤ e)
    (hlo : (2 : ℚ) ^ e ≤ |x|) (hhi : |x| < 2 ^ (e + 1))
    (hk : roundHalfEven (x / 2 ^ (e - 52)) = k) : roundFloat64 x = k * 2 ^ (e - 52) := by
  have hx : 0 < |x| := lt_of_lt_of_le (two_zpow_pos _) hlo
  have hx0 : x ≠ 0 := abs_pos.1 hx
  have hexp : float64Exponent x = e := by
    unfold float64Exponent
    rw [log_eq_of_bounds hlo hhi]
    exact max_eq_left he
  unfold roundFloat64
  rw [if_neg hx0, hexp, hk]

/-! ## `DurationToMillis` in float64 -/

theorem tdiv_tmod_million (d : Int) :
    1000000 * Int.tdiv d 1000000 + Int.tmod d 1000000 = d ∧
    (0 ≤ d → 0 ≤ Int.tmod d 1000000 ∧ Int.tmod d 1000000 < 1000000) ∧
    (d ≤ 0 → -1000000 < Int.tmod d 1000000 ∧ Int.tmod d 1000000 ≤ 0) := by
  refine ⟨Int.tdiv_add_tmod d 1000000, ?_, ?_⟩
  · intro h
    exact ⟨Int.tmod_nonneg _ h, Int.tmod_lt_of_pos _ (by norm_num)⟩
  · intro h
    have hneg : Int.tmod d 1000000 = -Int.tmod (-d) 1000000 := by
      rw [Int.tmod_def, Int.tmod_def, Int.neg_tdiv]; ring
    have h1 := Int.tmod_nonneg (1000000 : Int) (show 0 ≤ -d by omega)
    have h2 := Int.tmod_lt_of_pos (-d) (show (0 : Int) < 1000000 by norm_num)
    omega

theorem durationToMillisExact_eq (d : Int) : DurationToMillisExact d = (d : ℚ) / 1000000 := by
  have h := (tdiv_tmod_million d).1
  have hq : ((1000000 * Int.tdiv d 1000000 + Int.tmod d 1000000 : Int) : ℚ) = (d : ℚ) := by
    rw [h]
  push_cast at hq
  simp only [DurationToMillisExact, Millisecond]
  rw [← hq]
  field_simp
  ring

theorem small_ge_min_normal {y : ℚ} (h : 1 / 1000000 ≤ y) : (2 : ℚ) ^ (-1022 : ℤ) ≤ y := by
  have h1 : (2 : ℚ) ^ (-1022 : ℤ) ≤ 2 ^ (-20 : ℤ) := two_zpow_le (by norm_num)
  have h2 : (2 : ℚ) ^ (-20 : ℤ) ≤ 1 / 1000000 := by norm_num
  exact le_trans (le_trans h1 h2) h

theorem abs_durationToMillis_sub_le (d : Int) (hlo : -9223372036854775808 ≤ d)
    (hhi : d ≤ 9223372036854775807) :
    |DurationToMillis d - (d : ℚ) / 1000000| ≤ |(d : ℚ) / 1000000| / 2 ^ 52 := by
  obtain ⟨hsplit, hpos, hneg⟩ := tdiv_tmod_million d
  have hx := durationToMillisExact_eq d
  simp only [DurationToMillisExact, Millisecond] at hx
  generalize hsec : Int.tdiv d 1000000 = sec at *
  generalize hnsec : Int.tmod d 1000000 = nsec at *
  have hnb : -1000000 < nsec ∧ nsec < 1000000 := by
    rcases le_total 0 d with h | h
    · have := hpos h; omega
    · have := hneg h; omega
  have hsecb : |sec| ≤ 2 ^ 53 := by
    rw [abs_le]; constructor <;> norm_num <;> omega
  have hnsecb : |nsec| ≤ 2 ^ 53 := by
    rw [abs_le]; constructor <;> norm_num <;> omega
  have hD : DurationToMillis d =
      roundFloat64 ((sec : ℚ) + roundFloat64 ((nsec : ℚ) / 1000000)) := by
    simp only [DurationToMillis, Millisecond, float64Add, float64Div, float64OfInt, hsec, hnsec]
    rw [roundFloat64_intCast sec hsecb, roundFloat64_intCast nsec hnsecb]
  rw [hD, ← hx]
  by_cases hn0 : nsec = 0
  · subst hn0
    have : roundFloat64 ((0 : ℤ) / 1000000 : ℚ) = 0 := by simp [roundFloat64]
    rw [this]
    simp only [add_zero, Int.cast_zero, zero_div]
    rw [roundFloat64_intCast sec hsecb]
    simp
    positivity
  have hf_lo : (1 : ℚ) / 1000000 ≤ |(nsec : ℚ) / 1000000| := by
    rw [abs_div]
    have h1 : (1 : ℚ) ≤ |(nsec : ℚ)| := by
      have : (1 : ℤ) ≤ |nsec| := Int.one_le_abs hn0
      exact_mod_cast this
    have h2 : |(1000000 : ℚ)| = 1000000 := by norm_num
    rw [h2]
    exact div_le_div_of_nonneg_right h1 (by norm_num)
  have hf_hi : |(nsec : ℚ) / 1000000| ≤ 999999 / 1000000 := by
    rw [abs_div]
    have h1 : |(nsec : ℚ)| ≤ 999999 := by
      have : |nsec| ≤ 999999 := by rw [abs_le]; constructor <;> omega
      exact_mod_cast this
    have h2 : |(1000000 : ℚ)| = 1000000 := by norm_num
    rw [h2]
    exact div_le_div_of_nonneg_right h1 (by norm_num)
  have hq := abs_roundFloat64_sub_le_rel (small_ge_min_normal hf_lo)
  by_cases hs0 : sec = 0
  · subst hs0
    simp only [Int.cast_zero, zero_add]
    rw [roundFloat64_idem]
    refine le_trans hq ?_
    apply div_le_div_of_nonneg_left (abs_nonneg _) (by positivity)
    norm_num
  -- the whole part is not zero: the exact value is at least 1 in magnitude
  have hx1 : (1 : ℚ) ≤ |(sec : ℚ) + (nsec : ℚ) / 1000000| := by
    rw [hx]
    have hd : (1000000 : ℤ) ≤ |d| := by
      rcases le_total 0 d with h | h
      · have := hpos h
        rw [abs_of_nonneg h]; omega
      · have := hneg h
        rw [abs_of_nonpos h]; omega
    have hdq : (1000000 : ℚ) ≤ |(d : ℚ)| := by exact_mod_cast hd
    rw [abs_div, le_div_iff₀ (by norm_num)]
    simpa using hdq
  set f : ℚ := (nsec : ℚ) / 1000000 with hf
  set q : ℚ := roundFloat64 f with hqdef
  set x : ℚ := (sec : ℚ) + f with hxdef
  have hsx : (sec : ℚ) + q = x + (q - f) := by ring
  have hs_le : |(sec : ℚ) + q| ≤ |x| + |f| / 2 ^ 53 := by
    rw [hsx]; exact le_trans (abs_add _ _) (by linarith)
  have hs_ge : |x| - |f| / 2 ^ 53 ≤ |(sec : ℚ) + q| := by
    rw [hsx]
    have := abs_sub_abs_le_abs_sub x (-(q - f))
    rw [sub_neg_eq_add, abs_neg] at this
    linarith
  have hsmall : |f| / 2 ^ 53 ≤ 1 / 2 := by
    have : |f| / 2 ^ 53 ≤ |f| := div_le_self (abs_nonneg _) (by norm_num)
    linarith
  have hs_norm : (2 : ℚ) ^ (-1022 : ℤ) ≤ |(sec : ℚ) + q| :=
    small_ge_min_normal (by linarith)
  have hr := abs_roundFloat64_sub_le_rel hs_norm
  have htri : |roundFloat64 ((sec : ℚ) + q) - x| ≤
      |roundFloat64 ((sec : ℚ) + q) - ((sec : ℚ) + q)| + |q - f| := by
    have : roundFloat64 ((sec : ℚ) + q) - x =
        (roundFloat64 ((sec : ℚ) + q) - ((sec : ℚ) + q)) + (q - f) := by ring
    rw [this]; exact abs_add _ _
  have h53 : (0 : ℚ) < 2 ^ 53 := by positivity
  have hbound1 : |(sec : ℚ) + q| / 2 ^ 53 ≤ (|x| + |f| / 2 ^ 53) / 2 ^ 53 :=
    div_le_div_of_nonneg_right hs_le (le_of_lt h53)
  have hfinal : (|x| + |f| / 2 ^ 53) / 2 ^ 53 + |f| / 2 ^ 53 ≤ |x| / 2 ^ 52 := by
    have hfx : |f| * (1 + 1 / 2 ^ 53) ≤ |x| := by
      have h1 : |f| * (1 + 1 / 2 ^ 53) ≤ 999999 / 1000000 * (1 + 1 / 2 ^ 53) :=
        mul_le_mul_of_nonneg_right hf_hi (by positivity)
      have h2 : (999999 : ℚ) / 1000000 * (1 + 1 / 2 ^ 53) ≤ 1 := by norm_num
      linarith
    have e1 : (|x| + |f| / 2 ^ 53) / 2 ^ 53 + |f| / 2 ^ 53 =
        (|x| + |f| * (1 + 1 / 2 ^ 53)) / 2 ^ 53 := by ring
    have e2 : |x| / 2 ^ 52 = (|x| + |x|) / 2 ^ 53 := by ring
    rw [e1, e2]
    exact div_le_div_of_nonneg_right (by linarith) (le_of_lt h53)
  linarith

theorem durationToMillis_1003691 :
    DurationToMillis 1003691 = 282513900849695 / 281474976710656 := by
  have hsec : Int.tdiv 1003691 1000000 = 1 := by decide
  have hnsec : Int.tmod 1003691 1000000 = 3691 := by decide
  have hq : roundFloat64 ((3691 : ℚ) / 1000000) = 33245572449249 / 9007199254740992 := by
    rw [roundFloat64_eq _ (-9) 8510866547007744 (by norm_num) (by norm_num [abs_of_pos])
      (by norm_num [abs_of_pos]) (by norm_num [abs_lt])]
    norm_num
  have hs : roundFloat64 ((1 : ℚ) + 33245572449249 / 9007199254740992) =
      282513900849695 / 281474976710656 := by
    rw [roundFloat64_eq_of_round _ 0 4520222413595120 (by norm_num) (by norm_num [abs_of_pos])
      (by norm_num [abs_of_pos])
      (by
        have h := roundHalfEven_tie_even 4520222413595120 (by decide)
        have he : ((1 : ℚ) + 33245572449249 / 9007199254740992) / 2 ^ ((0 : ℤ) - 52) =
            ((4520222413595120 : ℤ) : ℚ) + 1 / 2 := by norm_num
        rw [he]; exact h)]
    norm_num
  simp only [DurationToMillis, Millisecond, float64Add, float64Div, float64OfInt, hsec, hnsec]
  rw [roundFloat64_intCast 1 (by norm_num), roundFloat64_intCast 3691 (by norm_num)]
  push_cast
  rw [hq, hs]

theorem roundFloat64_1003691 :
    roundFloat64 ((1003691 : ℚ) / 1000000) = 4520222413595121 / 4503599627370496 := by
  rw [roundFloat64_eq _ 0 4520222413595121 (by norm_num) (by norm_num [abs_of_pos])
    (by norm_num [abs_of_pos]) (by norm_num [abs_lt])]
  norm_num

theorem roundFloat64_20403 :
    roundFloat64 ((20403 : ℚ) / 1000) = 2871466974913757 / 140737488355328 := by
  rw [roundFloat64_eq _ 4 5742933949827514 (by norm_num) (by norm_num [abs_of_pos])
    (by norm_num [abs_of_pos]) (by norm_num [abs_lt])]
  norm_num

theorem durationToMillis_20403000 :
    DurationToMillis 20403000 = 2871466974913757 / 140737488355328 := by
  have hsec : Int.tdiv 20403000 1000000 = 20 := by decide
  have hnsec : Int.tmod 20403000 1000000 = 403000 := by decide
  have hq : roundFloat64 ((403000 : ℚ) / 1000000) = 907475324915155 / 2251799813685248 := by
    rw [roundFloat64_eq _ (-2) 7259802599321240 (by norm_num) (by norm_num [abs_of_pos])
      (by norm_num [abs_of_pos]) (by norm_num [abs_lt])]
    norm_num
  have hs : roundFloat64 ((20 : ℚ) + 907475324915155 / 2251799813685248) =
      2871466974913757 / 140737488355328 := by
    rw [roundFloat64_eq _ 4 5742933949827514 (by norm_num) (by norm_num [abs_of_pos])
      (by norm_num [abs_of_pos]) (by norm_num [abs_lt])]
    norm_num
  simp only [DurationToMillis, Millisecond, float64Add, float64Div, float64OfInt, hsec, hnsec]
  rw [roundFloat64_intCast 20 (by norm_num), roundFloat64_intCast 403000 (by norm_num)]
  push_cast
  rw [hq, hs]

theorem durationToMillis_maxInt64 :
    DurationToMillis 9223372036854775807 = 4722366482869645 / 512 := by
  have hsec : Int.tdiv 9223372036854775807 1000000 = 9223372036854 := by decide
  have hnsec : Int.tmod 9223372036854775807 1000000 = 775807 := by decide
  have hq : roundFloat64 ((775807 : ℚ) / 1000000) = 6987848232222845 / 9007199254740992 := by
    rw [roundFloat64_eq _ (-1) 6987848232222845 (by norm_num) (by norm_num [abs_of_pos])
      (by norm_num [abs_of_pos]) (by norm_num [abs_lt])]
    norm_num
  have hs : roundFloat64 ((9223372036854 : ℚ) + 6987848232222845 / 9007199254740992) =
      4722366482869645 / 512 := by
    rw [roundFloat64_eq _ 43 4722366482869645 (by norm_num) (by norm_num [abs_of_pos])
      (by norm_num [abs_of_pos]) (by norm_num [abs_lt])]
    norm_num
  simp only [DurationToMillis, Millisecond, float64Add, float64Div, float64OfInt, hsec, hnsec]
  rw [roundFloat64_intCast 9223372036854 (by norm_num), roundFloat64_intCast 775807 (by norm_num)]
  push_cast
  rw [hq, hs]

/-! ## The claims -/

/-- C1: for every state of `StandardEndpoints` and every world, the handlers of
`/healthcheck/gtg` (predicate `gtgCheck`) and `/healthcheck/asg` (predicate `canaryCheck`)
answer a fresh request as follows.  If the predicate is nil or returns true: status 200,
Content-Type `text/plain; charset=UTF-8`, body exactly the bytes `OK`.  If it returns false:
status 503, the same Content-Type, and nothing written to the body. -/
theorem gtg_asg_response {W C : Type} (s : StandardEndpoints W C) (w : W) :
    (gtgHandler s Context.fresh w).1.Response =
      (match s.gtgCheck.map (fun f => (f w).1) with
       | some false =>
           { contentType := some "text/plain; charset=UTF-8", code := 503, wroteHeader := true,
             body := [] }
       | _ =>
           { contentType := some "text/plain; charset=UTF-8", code := 200, wroteHeader := true,
             body := [Piece.bytes "OK"] }) ∧
    (asgHandler s Context.fresh w).1.Response =
      (match s.canaryCheck.map (fun f => (f w).1) with
       | some false =>
           { contentType := some "text/plain; charset=UTF-8", code := 503, wroteHeader := true,
             body := [] }
       | _ =>
           { contentType := some "text/plain; charset=UTF-8", code := 200, wroteHeader := true,
             body := [Piece.bytes "OK"] }) := by
  have hct : MIME_TEXT_PLAIN ++ "; charset=UTF-8" = "text/plain; charset=UTF-8" := by decide
  constructor
  · cases hg : s.gtgCheck with
    | none =>
        simp [gtgHandler, hg, Context.fresh, Context.SetDataWriter, DataWriter.SetHeader,
          TextPlainDataWriter.SetHeader, Response.setContentType, Response.WriteHeader,
          Context.Write, TextPlainDataWriter.Write, Response.Write, StatusOK, hct]
    | some f =>
        cases hv : (f w).1 <;>
        simp [gtgHandler, hg, hv, Context.fresh, Context.SetDataWriter, DataWriter.SetHeader,
          TextPlainDataWriter.SetHeader, Response.setContentType, Response.WriteHeader,
          Context.Write, TextPlainDataWriter.Write, Response.Write, StatusOK,
          StatusServiceUnavailable, hct]
  · cases hg : s.canaryCheck with
    | none =>
        simp [asgHandler, hg, Context.fresh, Context.SetDataWriter, DataWriter.SetHeader,
          TextPlainDataWriter.SetHeader, Response.setContentType, Response.WriteHeader,
          Context.Write, TextPlainDataWriter.Write, Response.Write, StatusOK, hct]
    | some f =>
        cases hv : (f w).1 <;>
        simp [asgHandler, hg, hv, Context.fresh, Context.SetDataWriter, DataWriter.SetHeader,
          TextPlainDataWriter.SetHeader, Response.setContentType, Response.WriteHeader,
          Context.Write, TextPlainDataWriter.Write, Response.Write, StatusOK,
          StatusServiceUnavailable, hct]

/-- C2: take any interleaving `acts` of steps (setter calls, timer expiries, loop iterations
of ticks, tick completions, status requests, other code) from `NewStandardEndpoints`, and
the state `sys` it leads to.  The `/healthcheck` handler writes the stored report.  If no
tick has completed in `acts`, the stored report is the zero value.  Otherwise take the last
completion in `acts`, of the tick `tk` in flight at position `k` of the state just before,
with the clock readings `now1` and `now2`: the stored report is exactly the report of that
one tick and that one completion.  Its `Timestamp` is `now2`, its `Duration` is `now1` minus
that tick's own start, saturated to 64 bits, and its `Results` are that tick's results,
which are the values its own calls returned, one for each check of its list; no later step
has changed it, and it is not the zero value.  And a tick does store such a report: after
`SetHealthCheckFuncs(interval, hs...)`, the new timer firing at `now`, the tick running its
loop and completing with `now1` and `now2` stores the report with `Timestamp` `now2`,
`Duration` `now1 - now` (saturated) and `Results` `[c1(), ..., cn()]`. -/
theorem healthReport_whole {W C : Type} (h : HostReadings) (w : W) (acts : List (Action W C))
    (sys : System W C) (hrun : run (System.init h w) acts = some sys) :
    (healthcheckHandler sys.se Context.fresh).Response.body =
        [Piece.encoded DataWriter.JSON (Data.report sys.se.healthReport)] ∧
    ((acts.all (fun a => !a.isComplete) = true ∧ sys.published = [] ∧
        sys.se.healthReport = HealthCheckReport.zero) ∨
     (∃ pre k now1 now2 post mid tk older,
        acts = pre ++ Action.complete k now1 now2 :: post ∧
        post.all (fun a => !a.isComplete) = true ∧
        run (System.init h w) pre = some mid ∧
        mid.ticks[k]? = some tk ∧
        tk.pending = [] ∧
        sys.se.healthReport =
          { Timestamp := now2
            Duration :=
              if now1 - tk.start < -9223372036854775808 then -9223372036854775808
              else if 9223372036854775807 < now1 - tk.start then 9223372036854775807
              else now1 - tk.start
            Results := tk.results } ∧
        sys.published = (tk, sys.se.healthReport) :: older ∧
        tk.results = tk.calls.map (fun cw => (cw.1 cw.2).1) ∧
        tk.calls.map Prod.fst = tk.healthchecks ∧
        tk.results.length = tk.healthchecks.length ∧
        tk.healthchecks ≠ [] ∧
        sys.se.healthReport ≠ HealthCheckReport.zero)) ∧
    (∀ interval hs now now1 now2, hs ≠ [] →
      ∃ sys4,
        run (SetHealthCheckFuncs sys interval hs)
          ([.fire sys.timers.length now] ++
            (List.replicate hs.length (.runCheck sys.ticks.length) ++
              [.complete sys.ticks.length now1 now2])) = some sys4 ∧
        sys4.se.healthReport =
          { Timestamp := now2
            Duration :=
              if now1 - now < -9223372036854775808 then -9223372036854775808
              else if 9223372036854775807 < now1 - now then 9223372036854775807
              else now1 - now
            Results := (callInOrder hs sys.world).1 }) := by
  have h1 : minInt64 = -9223372036854775808 := by decide
  have h2 : maxInt64 = 9223372036854775807 := by decide
  refine ⟨by simp [healthcheckHandler, Context.fresh, Context.SetDataWriter, Context.Write,
    Response.Write, Response.WriteHeader, DataWriter.SetHeader, Response.setContentType], ?_, ?_⟩
  · rcases last_complete_split acts with hall | ⟨pre, k, now1, now2, post, hsplit, hpost⟩
    · left
      obtain ⟨hrep, hpub⟩ := report_run_frame acts _ _ hrun hall
      exact ⟨hall, hpub, hrep⟩
    · right
      rw [hsplit, run_append] at hrun
      cases hmid : run (System.init h w) pre with
      | none => rw [hmid] at hrun; cases hrun
      | some mid =>
          rw [hmid] at hrun
          simp only [Option.some_bind, Se4.run] at hrun
          cases hst : Se4.step mid (.complete k now1 now2) with
          | none => rw [hst] at hrun; cases hrun
          | some mid1 =>
              rw [hst] at hrun
              obtain ⟨tk, htk, hpend, hrep, hpub⟩ := complete_step_report mid mid1 k now1 now2 hst
              obtain ⟨hrep2, hpub2⟩ := report_run_frame post _ _ hrun hpost
              have hI := inv_run pre _ _ (inv_init h w) hmid
              obtain ⟨hne, hcalls, hres⟩ := hI.ticksOK tk (List.mem_iff_getElem?.2 ⟨k, htk⟩)
              rw [hpend, List.append_nil] at hcalls
              have hlen : tk.results.length = tk.healthchecks.length := by
                rw [← hcalls, hres]; simp
              refine ⟨pre, k, now1, now2, post, mid, tk, mid.published, hsplit, hpost, hmid, htk,
                hpend, hrep2.trans hrep, ?_, hres, hcalls, hlen, hne, ?_⟩
              · rw [hpub2, hpub, hrep2]
              · rw [hrep2, hrep]
                intro h0
                have h3 : tk.results = [] := congrArg HealthCheckReport.Results h0
                rw [h3] at hlen
                exact hne (List.length_eq_zero.1 hlen.symm)
  · intro interval hs now now1 now2 hne
    obtain ⟨sys4, hr4, hrep4, _⟩ := tick_runs_to_completion sys interval hs hne now now1 now2
    refine ⟨sys4, hr4, ?_⟩
    rw [hrep4]
    simp only [timeSince, h1, h2]

/-- The statement of C2 at the interleaving `exTraceTwoTicks`, in which two ticks complete:
the stored report is that of the second one, readings 55 and 57, started at 40. -/
theorem healthReport_whole_witness :
    run (System.init exHost 0) exTraceTwoTicks = some exSysTwoTicks ∧
    exSysTwoTicks.se.healthReport =
      { Timestamp := 57, Duration := 15,
        Results := [{ DurationMillis := 20, Name := "some test", Result := "passed",
                      Timestamp := 7 },
                    { DurationMillis := 0, Name := "", Result := "", Timestamp := 0 }] } ∧
    (healthcheckHandler exSysTwoTicks.se Context.fresh).Response.body =
        [Piece.encoded DataWriter.JSON (Data.report exSysTwoTicks.se.healthReport)] ∧
    ((exTraceTwoTicks.all (fun a => !a.isComplete) = true ∧ exSysTwoTicks.published = [] ∧
        exSysTwoTicks.se.healthReport = HealthCheckReport.zero) ∨
     (∃ pre k now1 now2 post mid tk older,
        exTraceTwoTicks = pre ++ Action.complete k now1 now2 :: post ∧
        post.all (fun a => !a.isComplete) = true ∧
        run (System.init exHost 0) pre = some mid ∧
        mid.ticks[k]? = some tk ∧
        tk.pending = [] ∧
        exSysTwoTicks.se.healthReport =
          { Timestamp := now2
            Duration :=
              if now1 - tk.start < -9223372036854775808 then -9223372036854775808
              else if 9223372036854775807 < now1 - tk.start then 9223372036854775807
              else now1 - tk.start
            Results := tk.results } ∧
        exSysTwoTicks.published = (tk, exSysTwoTicks.se.healthReport) :: older ∧
        tk.results = tk.calls.map (fun cw => (cw.1 cw.2).1) ∧
        tk.calls.map Prod.fst = tk.healthchecks ∧
        tk.results.length = tk.healthchecks.length ∧
        tk.healthchecks ≠ [] ∧
        exSysTwoTicks.se.healthReport ≠ HealthCheckReport.zero)) ∧
    (∀ interval hs now now1 now2, hs ≠ [] →
      ∃ sys4,
        run (SetHealthCheckFuncs exSysTwoTicks interval hs)
          ([.fire exSysTwoTicks.timers.length now] ++
            (List.replicate hs.length (.runCheck exSysTwoTicks.ticks.length) ++
              [.complete exSysTwoTicks.ticks.length now1 now2])) = some sys4 ∧
        sys4.se.healthReport =
          { Timestamp := now2
            Duration :=
              if now1 - now < -9223372036854775808 then -9223372036854775808
              else if 9223372036854775807 < now1 - now then 9223372036854775807
              else now1 - now
            Results := (callInOrder hs exSysTwoTicks.world).1 }) :=
  ⟨rfl, by decide, healthReport_whole exHost 0 exTraceTwoTicks exSysTwoTicks rfl⟩

/-- C3: in every reachable state, every report a tick has stored holds exactly the values
returned by the calls that tick made, the sequence of functions it called is exactly its
registered list (each check once, in registration order), so the report has one entry per
registered check, and that list is not empty.  A tick in flight has called a leading part of
its list and holds the values those calls returned; it can always go on: its next loop
iteration is enabled while checks remain, and its completion is enabled once none remain.
And a tick does produce its report: after `SetHealthCheckFuncs(interval, hs...)` with a
non-empty `hs`, the new timer firing, the tick running its `hs.length` iterations and
completing stores the report whose `Results` are `[c1(), ..., cn()]` (`callInOrder`). -/
theorem tick_results_in_order {W C : Type} (sys : System W C) (hr : Reachable sys) :
    (∀ tk report, (tk, report) ∈ sys.published →
        report.Results = tk.calls.map (fun cw => (cw.1 cw.2).1) ∧
        tk.calls.map Prod.fst = tk.healthchecks ∧
        report.Results.length = tk.healthchecks.length ∧
        tk.healthchecks ≠ []) ∧
    (∀ k tk, sys.ticks[k]? = some tk →
        tk.results = tk.calls.map (fun cw => (cw.1 cw.2).1) ∧
        tk.calls.map Prod.fst ++ tk.pending = tk.healthchecks ∧
        (tk.pending ≠ [] → (step sys (.runCheck k)).isSome = true) ∧
        (tk.pending = [] → ∀ now1 now2, (step sys (.complete k now1 now2)).isSome = true)) ∧
    (∀ interval hs now now1 now2, hs ≠ [] →
      ∃ sys4,
        run (SetHealthCheckFuncs sys interval hs)
          ([.fire sys.timers.length now] ++
            (List.replicate hs.length (.runCheck sys.ticks.length) ++
              [.complete sys.ticks.length now1 now2])) = some sys4 ∧
        sys4.se.healthReport =
          { Timestamp := now2, Duration := timeSince now now1,
            Results := (callInOrder hs sys.world).1 } ∧
        sys4.world = (callInOrder hs sys.world).2) := by
  have hI := inv_of_reachable hr
  refine ⟨?_, ?_, fun interval hs now now1 now2 hne =>
    tick_runs_to_completion sys interval hs hne now now1 now2⟩
  · intro tk report hmem
    obtain ⟨⟨hne, hcalls, hres⟩, hpend, now1, now2, hrep⟩ := hI.publishedOK _ hmem
    simp only at hne hcalls hres hpend hrep
    rw [hpend, List.append_nil] at hcalls
    refine ⟨?_, hcalls, ?_, hne⟩
    · rw [hrep]; exact hres
    · rw [hrep, ← hcalls]; simp [Tick.report, hres]
  · intro k tk htk
    obtain ⟨hne, hcalls, hres⟩ := hI.ticksOK tk (List.mem_iff_getElem?.2 ⟨k, htk⟩)
    refine ⟨hres, hcalls, ?_, ?_⟩
    · intro hp
      cases hpe : tk.pending with
      | nil => exact absurd hpe hp
      | cons chk rest => simp [Se4.step, htk, hpe]
    · intro hp now1 now2
      cases hheld : sys.se.healthCheckTimer with
      | none =>
          have := (hI.noTimerYet hheld).2.1
          rw [this] at htk; simp at htk
      | some t => simp [Se4.step, htk, hp, hheld]

/-- The statement of C3 at the state `exSys`. -/
theorem tick_results_in_order_witness :
    Reachable exSys ∧
    (∀ tk report, (tk, report) ∈ exSys.published →
        report.Results = tk.calls.map (fun cw => (cw.1 cw.2).1) ∧
        tk.calls.map Prod.fst = tk.healthchecks ∧
        report.Results.length = tk.healthchecks.length ∧
        tk.healthchecks ≠ []) ∧
    (∀ k tk, exSys.ticks[k]? = some tk →
        tk.results = tk.calls.map (fun cw => (cw.1 cw.2).1) ∧
        tk.calls.map Prod.fst ++ tk.pending = tk.healthchecks ∧
        (tk.pending ≠ [] → (step exSys (.runCheck k)).isSome = true) ∧
        (tk.pending = [] → ∀ now1 now2, (step exSys (.complete k now1 now2)).isSome = true)) ∧
    (∀ interval hs now now1 now2, hs ≠ [] →
      ∃ sys4,
        run (SetHealthCheckFuncs exSys interval hs)
          ([.fire exSys.timers.length now] ++
            (List.replicate hs.length (.runCheck exSys.ticks.length) ++
              [.complete exSys.ticks.length now1 now2])) = some sys4 ∧
        sys4.se.healthReport =
          { Timestamp := now2, Duration := timeSince now now1,
            Results := (callInOrder hs exSys.world).1 } ∧
        sys4.world = (callInOrder hs exSys.world).2) :=
  ⟨⟨exHost, 0, exTrace, rfl⟩, tick_results_in_order exSys ⟨exHost, 0, exTrace, rfl⟩⟩

/-- C4, the code at the failing input: `SetHealthCheckFuncs(5, exCheck1)` is called, the
timer fires, and while that tick is in flight `SetHealthCheckFuncs(0)` is called with no
checks.  Right after that call the list is empty, the stored report is still the zero value
and the held timer is stopped.  The tick in flight then runs its check and completes: the
stored report changes to that tick's report although the list is still empty, the held
timer is armed again with the old interval 5, and it can fire again, starting a tick with
one check to run. -/
theorem empty_list_with_tick_in_flight :
    Reachable exInFlight ∧
    exStopped.se.healthChecks = [] ∧
    exStopped.se.healthReport = HealthCheckReport.zero ∧
    exStopped.heldTimer.map Timer.armed = some none ∧
    run exStopped [.runCheck 0, .complete 0 20 21] = some exStoppedThenCompleted ∧
    exStoppedThenCompleted.se.healthChecks = [] ∧
    exStoppedThenCompleted.se.healthReport =
      { Timestamp := 21, Duration := 10,
        Results := [{ DurationMillis := 20, Name := "some test", Result := "passed",
                      Timestamp := 7 }] } ∧
    exStoppedThenCompleted.se.healthReport ≠ exStopped.se.healthReport ∧
    exStoppedThenCompleted.heldTimer.map Timer.armed = some (some 5) ∧
    (step exStoppedThenCompleted (.fire 0 26)).map (fun sys => sys.ticks.map (fun tk => tk.pending.length))
      = some [1] := by
  refine ⟨⟨exHost, 0, exTraceInFlight, rfl⟩, rfl, rfl, rfl, rfl, rfl, ?_, ?_, rfl, rfl⟩
  · decide
  · decide

/-- C5: for every state and every interval, `SetHealthCheckFuncs(interval)` with an empty
list changes, in the record, only `healthChecks` (to empty): the stored report, both
predicates, the config source and the timer pointer stay as they were.  It creates no timer,
stops the held timer if there is one and leaves every other timer, the ticks in flight and
the world as they were. -/
theorem setHealthCheckFuncs_empty_frame {W C : Type} (sys : System W C) (interval : Duration) :
    (SetHealthCheckFuncs sys interval []).se = { sys.se with healthChecks := [] } ∧
    (SetHealthCheckFuncs sys interval []).se.healthChecks = [] ∧
    (SetHealthCheckFuncs sys interval []).se.healthReport = sys.se.healthReport ∧
    (SetHealthCheckFuncs sys interval []).se.gtgCheck = sys.se.gtgCheck ∧
    (SetHealthCheckFuncs sys interval []).se.canaryCheck = sys.se.canaryCheck ∧
    (SetHealthCheckFuncs sys interval []).se.configSrc = sys.se.configSrc ∧
    (SetHealthCheckFuncs sys interval []).se.healthCheckTimer = sys.se.healthCheckTimer ∧
    (SetHealthCheckFuncs sys interval []).timers.length = sys.timers.length ∧
    (∀ t tm, sys.se.healthCheckTimer = some t → sys.timers[t]? = some tm →
      (SetHealthCheckFuncs sys interval []).timers[t]? = some { tm with armed := none }) ∧
    (∀ j, sys.se.healthCheckTimer ≠ some j →
      (SetHealthCheckFuncs sys interval []).timers[j]? = sys.timers[j]?) ∧
    (SetHealthCheckFuncs sys interval []).ticks = sys.ticks ∧
    (SetHealthCheckFuncs sys interval []).world = sys.world ∧
    (SetHealthCheckFuncs sys interval []).published = sys.published := by
  cases hheld : sys.se.healthCheckTimer with
  | none => simp [SetHealthCheckFuncs, hheld]
  | some t =>
      simp only [SetHealthCheckFuncs, hheld, List.length_nil, if_true, true_and,
        stopTimer, length_updateTimer, getElem?_updateTimer, and_true]
      constructor
      · intro t1 tm ht1 htm
        simp only [Option.some.injEq] at ht1
        subst ht1
        simp [htm, Timer.Stop]
      · intro j hj
        have : ¬ j = t := fun e => hj (by rw [e])
        simp [this]

/-- C6: for every reachable state, every interval and every non-empty list,
`SetHealthCheckFuncs` leaves the record holding a new timer armed with the fixed delay of 1
nanosecond, whatever the interval, and 1 is at most any positive interval.  When that timer
fires, the tick it starts carries the interval and the list of that call.  And every tick
that completes arms the held timer with exactly the interval it carries. -/
theorem first_tick_then_interval {W C : Type} (sys : System W C) (hr : Reachable sys)
    (interval : Duration) (hs : List (HealthCheckFunc W)) (hne : hs ≠ []) (now : Time) :
    (SetHealthCheckFuncs sys interval hs).heldTimer =
      some { armed := some 1, healthchecks := hs, interval := interval } ∧
    (0 < interval → (1 : Duration) ≤ interval) ∧
    (∃ sys1, step (SetHealthCheckFuncs sys interval hs) (.fire sys.timers.length now) = some sys1 ∧
      sys1.ticks.getLast? =
        some { healthchecks := hs, interval := interval, start := now, results := [],
               pending := hs, calls := [] }) ∧
    (∀ k tk now1 now2, sys.ticks[k]? = some tk → tk.pending = [] →
      ∃ sys1 tm, step sys (.complete k now1 now2) = some sys1 ∧
        sys1.heldTimer = some tm ∧ tm.armed = some tk.interval) := by
  obtain ⟨h1, h2, _⟩ := heldTimer_SetHealthCheckFuncs sys interval hs hne
  refine ⟨?_, fun h => Int.add_one_le_of_lt h, ?_, ?_⟩
  · simp only [System.heldTimer, h1, h2, AfterFunc]
  · refine ⟨_, by simp only [Se4.step, h2, AfterFunc]; rfl, ?_⟩
    simp [Tick.begin]
  · intro k tk now1 now2 htk hp
    have hI := inv_of_reachable hr
    cases hheld : sys.se.healthCheckTimer with
    | none =>
        have := (hI.noTimerYet hheld).2.1
        rw [this] at htk; simp at htk
    | some t =>
        have hlt := hI.heldValid t hheld
        refine ⟨{ sys with
                  se := { sys.se with healthReport := tk.report now1 now2 }
                  timers := resetTimer sys.timers t tk.interval
                  ticks := sys.ticks.eraseIdx k
                  published := (tk, tk.report now1 now2) :: sys.published },
                (sys.timers[t]).Reset tk.interval, ?_, ?_, rfl⟩
        · simp only [Se4.step, htk, hp, hheld]
        · simp [System.heldTimer, hheld, resetTimer, getElem?_updateTimer, hlt]

/-- The statement of C6 at the state `exSys`, for interval 9 and the list `[exCheck2]`. -/
theorem first_tick_then_interval_witness :
    Reachable exSys ∧ [exCheck2] ≠ [] ∧
    ((SetHealthCheckFuncs exSys 9 [exCheck2]).heldTimer =
      some { armed := some 1, healthchecks := [exCheck2], interval := 9 } ∧
    (0 < (9 : Duration) → (1 : Duration) ≤ 9) ∧
    (∃ sys1, step (SetHealthCheckFuncs exSys 9 [exCheck2]) (.fire exSys.timers.length 50) =
        some sys1 ∧
      sys1.ticks.getLast? =
        some { healthchecks := [exCheck2], interval := 9, start := 50, results := [],
               pending := [exCheck2], calls := [] }) ∧
    (∀ k tk now1 now2, exSys.ticks[k]? = some tk → tk.pending = [] →
      ∃ sys1 tm, step exSys (.complete k now1 now2) = some sys1 ∧
        sys1.heldTimer = some tm ∧ tm.armed = some tk.interval)) :=
  ⟨⟨exHost, 0, exTrace, rfl⟩, by simp,
    first_tick_then_interval exSys ⟨exHost, 0, exTrace, rfl⟩ 9 [exCheck2] (by simp) 50⟩

/-- C7: after any sequence of `SetConfigSourceFunc` calls that ends with
`SetConfigSourceFunc(ToConfigSourceFunc(c))`, the handler of `/config` hands exactly `c` to
the JSON data writer, as the only piece of the body, and leaves the world alone; for
instance the map with the one entry `something`, `a value` is the value encoded.  If the last
source set is nil, or none was ever set since `NewStandardEndpoints`, the body is empty. -/
theorem config_handler_writes_last {W C : Type} (s : StandardEndpoints W C)
    (fs : List (Option (ConfigSourceFunc W C))) (c : C) (w : W) (h : HostReadings) :
    configHandler
        ((fs.foldl StandardEndpoints.SetConfigSourceFunc s).SetConfigSourceFunc
          (some (ToConfigSourceFunc c))) Context.fresh w =
      (Context.fresh.Write (Data.config c), w) ∧
    (Context.fresh.Write (Data.config c)).Response.body =
      [Piece.encoded DataWriter.JSON (Data.config c)] ∧
    (configHandler
        ((fs.foldl StandardEndpoints.SetConfigSourceFunc s).SetConfigSourceFunc none)
        Context.fresh w).1.Response.body = [] ∧
    (configHandler (NewStandardEndpoints h : StandardEndpoints W C)
        Context.fresh w).1.Response.body = [] ∧
    (configHandler
        ((NewStandardEndpoints h : StandardEndpoints W (List (String × String))).SetConfigSourceFunc
          (some (ToConfigSourceFunc [("something", "a value")])))
        Context.fresh w).1.Response.body =
      [Piece.encoded DataWriter.JSON (Data.config [("something", "a value")])] := by
  refine ⟨rfl, rfl, rfl, rfl, rfl⟩

/-- C8, counterexample: the float64 value that `DurationToMillis` returns for 1003691
nanoseconds is `282513900849695 / 2 ^ 48` (printed 1.0036909999999999).  It is not
`1003691 / 1000000`, and it is not even the float64 nearest to it: the two roundings, of the
quotient and of the sum, lose precision.  For the largest 64-bit duration it returns
`4722366482869645 / 512`, which is 9223372036854.775390625 and not 9223372036854.775807. -/
theorem durationToMillis_not_exact :
    DurationToMillis 1003691 = 282513900849695 / 281474976710656 ∧
    DurationToMillis 1003691 ≠ (1003691 : ℚ) / 1000000 ∧
    roundFloat64 ((1003691 : ℚ) / 1000000) = 4520222413595121 / 4503599627370496 ∧
    DurationToMillis 1003691 ≠ roundFloat64 ((1003691 : ℚ) / 1000000) ∧
    DurationToMillis 9223372036854775807 = 4722366482869645 / 512 ∧
    DurationToMillis 9223372036854775807 ≠ (9223372036854775807 : ℚ) / 1000000 := by
  refine ⟨durationToMillis_1003691, ?_, roundFloat64_1003691, ?_, durationToMillis_maxInt64, ?_⟩
  · rw [durationToMillis_1003691]; norm_num
  · rw [durationToMillis_1003691, roundFloat64_1003691]; norm_num
  · rw [durationToMillis_maxInt64]; norm_num

/-- C8, as amended: for every duration `d` given as a signed 64-bit count of nanoseconds,
negative ones included, the formula of `DurationToMillis` read over the rationals, the
truncated quotient `d / 1ms` plus the remainder `(d % 1ms) / 10^6`, is exactly
`d / 1000000`; the float64 value the code returns differs from `d / 1000000` by at most
`2 ^ (-52)` of its magnitude; and for 20403 microseconds the code returns the float64
nearest to 20.403. -/
theorem durationToMillis_within_rounding (d : Duration) (hlo : minInt64 ≤ d)
    (hhi : d ≤ maxInt64) :
    DurationToMillisExact d = (d : ℚ) / 1000000 ∧
    |DurationToMillis d - (d : ℚ) / 1000000| ≤ |(d : ℚ) / 1000000| / 2 ^ 52 ∧
    DurationToMillis (20403 * Microsecond) = roundFloat64 20.403 ∧
    roundFloat64 20.403 = 2871466974913757 / 140737488355328 := by
  have h1 : minInt64 = -9223372036854775808 := by decide
  have h2 : maxInt64 = 9223372036854775807 := by decide
  have h3 : (20403 * Microsecond : Duration) = 20403000 := by decide
  have h4 : (20.403 : ℚ) = 20403 / 1000 := by norm_num
  refine ⟨durationToMillisExact_eq d,
    abs_durationToMillis_sub_le d (by rw [← h1]; exact hlo) (by rw [← h2]; exact hhi), ?_, ?_⟩
  · rw [h3, h4, durationToMillis_20403000, roundFloat64_20403]
  · rw [h4, roundFloat64_20403]

/-- The statement of C8, as amended, at the duration of -1500001 nanoseconds. -/
theorem durationToMillis_within_rounding_witness :
    (minInt64 ≤ -1500001 ∧ (-1500001 : Duration) ≤ maxInt64) ∧
    DurationToMillisExact (-1500001) = ((-1500001 : Duration) : ℚ) / 1000000 ∧
    |DurationToMillis (-1500001) - ((-1500001 : Duration) : ℚ) / 1000000| ≤
      |((-1500001 : Duration) : ℚ) / 1000000| / 2 ^ 52 ∧
    DurationToMillis (20403 * Microsecond) = roundFloat64 20.403 ∧
    roundFloat64 20.403 = 2871466974913757 / 140737488355328 :=
  ⟨⟨by decide, by decide⟩, durationToMillis_within_rounding (-1500001) (by decide) (by decide)⟩

/-- C9: `SetGoodToGoFunc f` changes only the field `gtgCheck`, of the record and of the
whole system, and the response of `/healthcheck/asg` is the same before and after;
`SetServiceCanaryFunc f` changes only `canaryCheck`, and the response of `/healthcheck/gtg`
is the same before and after.  Each setter is last-writer-wins: after two calls the field is
the second function and the handler answers as if only the second call had been made. -/
theorem predicates_independent {W C : Type} (sys : System W C)
    (f g : Option (W → Bool × W)) (c : Context C) (w : W) :
    (step sys (.setGoodToGoFunc f) = some { sys with se := { sys.se with gtgCheck := f } } ∧
     asgHandler (sys.se.SetGoodToGoFunc f) c w = asgHandler sys.se c w) ∧
    (step sys (.setServiceCanaryFunc f) =
        some { sys with se := { sys.se with canaryCheck := f } } ∧
     gtgHandler (sys.se.SetServiceCanaryFunc f) c w = gtgHandler sys.se c w) ∧
    (((sys.se.SetGoodToGoFunc f).SetGoodToGoFunc g).gtgCheck = g ∧
     gtgHandler ((sys.se.SetGoodToGoFunc f).SetGoodToGoFunc g) c w =
       gtgHandler (sys.se.SetGoodToGoFunc g) c w) ∧
    (((sys.se.SetServiceCanaryFunc f).SetServiceCanaryFunc g).canaryCheck = g ∧
     asgHandler ((sys.se.SetServiceCanaryFunc f).SetServiceCanaryFunc g) c w =
       asgHandler (sys.se.SetServiceCanaryFunc g) c w) :=
  ⟨⟨rfl, rfl⟩, ⟨rfl, rfl⟩, ⟨rfl, rfl⟩, ⟨rfl, rfl⟩⟩

/-- C10: let `SetHealthCheckFuncs(i2, L2)` with a non-empty `L2` be called in any reachable
state, whatever list was registered before and whatever ticks are in flight.  After any
further steps among which there is no other call with a non-empty list, every tick that
starts (a timer fires) is a run of the closure of that call: its list to visit is `L2`, its
interval `i2`, and it has called nothing yet. -/
theorem ticks_after_reconfigure_run_new_list {W C : Type} (sys0 : System W C)
    (hr : Reachable sys0) (i2 : Duration) (L2 : List (HealthCheckFunc W)) (hL2 : L2 ≠ [])
    (acts : List (Action W C)) (hacts : ∀ a ∈ acts, a.isReconfigure = false)
    (t : Nat) (now : Time) (sys3 : System W C)
    (hrun : run (SetHealthCheckFuncs sys0 i2 L2) (acts ++ [.fire t now]) = some sys3) :
    sys3.ticks.getLast? =
      some { healthchecks := L2, interval := i2, start := now, results := [], pending := L2,
             calls := [] } := by
  rw [run_append] at hrun
  cases h2 : run (SetHealthCheckFuncs sys0 i2 L2) acts with
  | none => rw [h2] at hrun; cases hrun
  | some sys2 =>
      rw [h2] at hrun
      simp only [Option.some_bind, Se4.run] at hrun
      have hH := heldRuns_run L2 i2 acts _ _ (heldRuns_afterSet sys0 (inv_of_reachable hr) i2 L2 hL2) hacts h2
      obtain ⟨th, tm, hheld, htm, hL, hidle⟩ := hH
      cases hst : Se4.step sys2 (.fire t now) with
      | none => rw [hst] at hrun; cases hrun
      | some s3 =>
          rw [hst] at hrun
          simp only [Option.some.injEq] at hrun
          subst hrun
          simp only [Se4.step] at hst
          cases htm1 : sys2.timers[t]? with
          | none => rw [htm1] at hst; cases hst
          | some tm1 =>
              rw [htm1] at hst
              cases harm : tm1.armed with
              | none => simp [harm] at hst
              | some d =>
                  simp only [harm, Option.some.injEq] at hst
                  have ht1 : t = th := by
                    by_contra hne
                    have := hidle t tm1 htm1 hne
                    rw [harm] at this; cases this
                  subst ht1
                  rw [htm] at htm1
                  simp only [Option.some.injEq] at htm1
                  subst htm1
                  rw [← hst]
                  simp [Tick.begin, hL.1, hL.2]

/-- The statement of C10 at the state `exInFlight`: the tick of `exCheck1` in flight
finishes after the reconfiguration, and the tick that then starts runs `exCheck2`. -/
theorem ticks_after_reconfigure_run_new_list_witness :
    Reachable exInFlight ∧ [exCheck2] ≠ [] ∧
    (∀ a ∈ ([.runCheck 0, .complete 0 20 21] : List (Action Nat Unit)),
      a.isReconfigure = false) ∧
    run (SetHealthCheckFuncs exInFlight 7 [exCheck2])
      ([.runCheck 0, .complete 0 20 21] ++ [.fire 1 30]) = some exReconfigured ∧
    exReconfigured.ticks.getLast? =
      some { healthchecks := [exCheck2], interval := 7, start := 30, results := [],
             pending := [exCheck2], calls := [] } :=
  ⟨⟨exHost, 0, exTraceInFlight, rfl⟩, by simp, by simp [Action.isReconfigure], rfl,
    ticks_after_reconfigure_run_new_list exInFlight ⟨exHost, 0, exTraceInFlight, rfl⟩ 7
      [exCheck2] (by simp) [.runCheck 0, .complete 0 20 21] (by simp [Action.isReconfigure])
      1 30 exReconfigured rfl⟩

/-- C11: for every `BuildInfo` `b`, the `Status` built by
`NewStandardEndpointsWithBuildInfo(b)` carries `b` as its build info, all ten fields; with
only `Version` and `BuiltBy` set, the other eight are empty strings.  A call of
`generateStatus` changes nothing of the record but four fields of its `Status`: `OSAvgload`,
`UpDuration`, `CurrentTime` and `GoNumRoutines`; the build info stays.  So in every state
reachable from `NewStandardEndpointsWithBuildInfo(b)` by any interleaving of steps, calls of
`generateStatus` among them, the build info is still `b`, and the handler of `/status` hands
to the JSON data writer a `Status` whose `ArtifactID` is the one supplied at construction. -/
theorem status_keeps_buildInfo {W C : Type} (b : BuildInfo) (sys : System W C)
    (hr : ReachableWith b sys) (h : HostReadings) (s : StandardEndpoints W C)
    (r : StatusReadings) :
    (NewStandardEndpointsWithBuildInfo h b : StandardEndpoints W C).Status.BuildInfo = b ∧
    (NewStandardEndpointsWithBuildInfo h { Version := "0", BuiltBy := "me" } :
        StandardEndpoints W C).Status.BuildInfo =
      { ArtifactID := "", BuildNumber := "", BuildMachine := "", BuiltBy := "me",
        BuiltWhen := "", GitSha1 := "", GitBranch := "", GitRepo := "", RunbookURI := "",
        Version := "0" } ∧
    s.generateStatus r =
      { s with
        Status :=
          { s.Status with
            OSAvgload := r.loadAverage.getD "0.0"
            UpDuration := r.durationString (timeSince s.Status.UpSinceTime r.now)
            CurrentTime := r.nowRFC3339
            GoNumRoutines := r.numGoroutine } } ∧
    (s.generateStatus r).Status.BuildInfo = s.Status.BuildInfo ∧
    sys.se.Status.BuildInfo = b ∧
    (statusHandler sys.se r Context.fresh).1.Response.body =
      [Piece.encoded DataWriter.JSON (Data.status (sys.se.generateStatus r).Status)] ∧
    (sys.se.generateStatus r).Status.BuildInfo.ArtifactID = b.ArtifactID := by
  have hgen : ∀ s : StandardEndpoints W C, s.generateStatus r =
      { s with
        Status :=
          { s.Status with
            OSAvgload := r.loadAverage.getD "0.0"
            UpDuration := r.durationString (timeSince s.Status.UpSinceTime r.now)
            CurrentTime := r.nowRFC3339
            GoNumRoutines := r.numGoroutine } } := by
    intro s
    simp only [StandardEndpoints.generateStatus]
    cases r.loadAverage <;> rfl
  have hsys : sys.se.Status.BuildInfo = b := by
    obtain ⟨h0, w, acts, hrun⟩ := hr
    rw [buildInfo_run acts _ _ hrun]; rfl
  refine ⟨rfl, rfl, hgen s, by rw [hgen s], hsys, ?_, by rw [hgen sys.se]; exact congrArg _ hsys⟩
  simp [statusHandler, Context.fresh, Context.SetDataWriter, Context.Write, Response.Write,
    Response.WriteHeader, DataWriter.SetHeader, Response.setContentType]

/-- The statement of C11 at the state `exSysStatus`, built from `exBuildInfo`. -/
theorem status_keeps_buildInfo_witness :
    ReachableWith exBuildInfo exSysStatus ∧
    (NewStandardEndpointsWithBuildInfo exHost exBuildInfo :
        StandardEndpoints Nat Unit).Status.BuildInfo = exBuildInfo ∧
    (NewStandardEndpointsWithBuildInfo exHost { Version := "0", BuiltBy := "me" } :
        StandardEndpoints Nat Unit).Status.BuildInfo =
      { ArtifactID := "", BuildNumber := "", BuildMachine := "", BuiltBy := "me",
        BuiltWhen := "", GitSha1 := "", GitBranch := "", GitRepo := "", RunbookURI := "",
        Version := "0" } ∧
    exSysStatus.se.generateStatus exReadings1 =
      { exSysStatus.se with
        Status :=
          { exSysStatus.se.Status with
            OSAvgload := exReadings1.loadAverage.getD "0.0"
            UpDuration :=
              exReadings1.durationString (timeSince exSysStatus.se.Status.UpSinceTime
                exReadings1.now)
            CurrentTime := exReadings1.nowRFC3339
            GoNumRoutines := exReadings1.numGoroutine } } ∧
    (exSysStatus.se.generateStatus exReadings1).Status.BuildInfo =
      exSysStatus.se.Status.BuildInfo ∧
    exSysStatus.se.Status.BuildInfo = exBuildInfo ∧
    (statusHandler exSysStatus.se exReadings1 Context.fresh).1.Response.body =
      [Piece.encoded DataWriter.JSON
        (Data.status (exSysStatus.se.generateStatus exReadings1).Status)] ∧
    (exSysStatus.se.generateStatus exReadings1).Status.BuildInfo.ArtifactID =
      exBuildInfo.ArtifactID :=
  ⟨⟨exHost, 0, exTraceStatus, rfl⟩,
    status_keeps_buildInfo exBuildInfo exSysStatus ⟨exHost, 0, exTraceStatus, rfl⟩ exHost
      exSysStatus.se exReadings1⟩

/-- C12, the code at the failing input: a tick of the list `[exCheck1]`, configured with
interval 5, is in flight when `SetHealthCheckFuncs(7, exCheck2)` is called.  The call leaves
the record holding a new timer, at address 1, whose closure captures the list `[exCheck2]`
and the interval 7, armed with 1.  The old tick then runs its check and completes: it resets
the held timer, which is now the new one, with its own interval 5.  The new list is then
scheduled at the old interval: the timer whose closure holds `[exCheck2]` and 7 is armed
with 5, and when it fires the tick it starts runs `[exCheck2]`. -/
theorem new_list_armed_at_old_interval :
    Reachable exInFlight ∧
    exInFlight.ticks.map (fun tk => (tk.interval, tk.healthchecks.length)) = [(5, 1)] ∧
    (SetHealthCheckFuncs exInFlight 7 [exCheck2]).heldTimer =
      some { armed := some 1, healthchecks := [exCheck2], interval := 7 } ∧
    run (SetHealthCheckFuncs exInFlight 7 [exCheck2]) [.runCheck 0, .complete 0 20 21] =
      some exStaleInterval ∧
    exStaleInterval.se.healthCheckTimer = some 1 ∧
    exStaleInterval.heldTimer =
      some { armed := some 5, healthchecks := [exCheck2], interval := 7 } ∧
    (step exStaleInterval (.fire 1 30)).map (fun sys => sys.ticks.map Tick.healthchecks) =
      some [[exCheck2]] :=
  ⟨⟨exHost, 0, exTraceInFlight, rfl⟩, rfl, rfl, rfl, rfl, rfl, rfl⟩

/-- C13: in every state reachable from `NewStandardEndpoints` at most one timer of the heap
is armed, and an armed timer is the one the record holds.  A call of `SetHealthCheckFuncs`,
with any list, leaves the timer held before the call stopped, and again at most one timer
armed (the new one, if the list is not empty).  A completing tick changes no timer but the
one the record holds, and leaves at most one timer armed. -/
theorem at_most_one_timer_armed {W C : Type} (sys : System W C) (hr : Reachable sys) :
    (sys.timers.filter (fun tm => tm.armed.isSome)).length ≤ 1 ∧
    (∀ j tm, sys.timers[j]? = some tm → tm.armed ≠ none → sys.se.healthCheckTimer = some j) ∧
    (∀ interval hs t tm, sys.se.healthCheckTimer = some t →
      (SetHealthCheckFuncs sys interval hs).timers[t]? = some tm → tm.armed = none) ∧
    (∀ interval hs,
      ((SetHealthCheckFuncs sys interval hs).timers.filter
        (fun tm => tm.armed.isSome)).length ≤ 1) ∧
    (∀ k now1 now2 sys1, step sys (.complete k now1 now2) = some sys1 →
      (∀ j, sys.se.healthCheckTimer ≠ some j → sys1.timers[j]? = sys.timers[j]?) ∧
      (sys1.timers.filter (fun tm => tm.armed.isSome)).length ≤ 1) := by
  have hI := inv_of_reachable hr
  have hheldOnly : ∀ (s1 : System W C), Inv s1 → ∀ j tm, s1.timers[j]? = some tm →
      tm.armed ≠ none → s1.se.healthCheckTimer = some j := by
    intro s1 h1 j tm hj harm
    by_contra hne
    exact harm (h1.othersIdle j tm hj hne)
  have hcount : ∀ (s1 : System W C), Inv s1 →
      (s1.timers.filter (fun tm => tm.armed.isSome)).length ≤ 1 := by
    intro s1 h1
    apply filter_length_le_one
    intro i j x y hi hj hx hy
    have h2 := hheldOnly s1 h1 i x hi (by intro e; rw [e] at hx; cases hx)
    have h3 := hheldOnly s1 h1 j y hj (by intro e; rw [e] at hy; cases hy)
    rw [h2] at h3
    exact Option.some.inj h3
  refine ⟨hcount sys hI, hheldOnly sys hI, ?_, ?_, ?_⟩
  · intro interval hs t tm hheld htm
    have hlt := hI.heldValid t hheld
    have hstop : (stopTimer sys.timers t)[t]? = some tm := by
      have hlen : (stopTimer sys.timers t).length = sys.timers.length := by
        simp [stopTimer, length_updateTimer]
      by_cases he : hs.length = 0
      · simpa [SetHealthCheckFuncs, he, hheld] using htm
      · simp only [SetHealthCheckFuncs, he, hheld, if_false] at htm
        rw [List.getElem?_append, if_pos (by omega)] at htm
        exact htm
    rw [stopTimer, getElem?_updateTimer, if_pos rfl] at hstop
    cases h0 : sys.timers[t]? with
    | none => rw [h0] at hstop; cases hstop
    | some tm0 =>
        rw [h0] at hstop
        simp only [Option.map_some', Option.some.injEq] at hstop
        rw [← hstop]; rfl
  · intro interval hs
    exact hcount _ (inv_setHealthCheckFuncs sys hI interval hs)
  · intro k now1 now2 sys1 hst
    refine ⟨?_, hcount sys1 (inv_step sys sys1 _ hI hst)⟩
    intro j hj
    simp only [Se4.step] at hst
    cases htk : sys.ticks[k]? with
    | none => rw [htk] at hst; cases hst
    | some tk =>
        rw [htk] at hst
        cases hp : tk.pending with
        | cons chk rest => simp [hp] at hst
        | nil =>
            simp only [hp] at hst
            cases hheld : sys.se.healthCheckTimer with
            | none => simp [hheld] at hst
            | some t =>
                simp only [hheld, Option.some.injEq] at hst
                rw [← hst]
                have hjt : ¬ j = t := fun e => hj (by rw [hheld, e])
                simp only [resetTimer, getElem?_updateTimer, if_neg hjt]

/-- The statement of C13 at the state `exReconfigured`. -/
theorem at_most_one_timer_armed_witness :
    Reachable exReconfigured ∧
    (exReconfigured.timers.filter (fun tm => tm.armed.isSome)).length ≤ 1 ∧
    (∀ j tm, exReconfigured.timers[j]? = some tm → tm.armed ≠ none →
      exReconfigured.se.healthCheckTimer = some j) ∧
    (∀ interval hs t tm, exReconfigured.se.healthCheckTimer = some t →
      (SetHealthCheckFuncs exReconfigured interval hs).timers[t]? = some tm →
      tm.armed = none) ∧
    (∀ interval hs,
      ((SetHealthCheckFuncs exReconfigured interval hs).timers.filter
        (fun tm => tm.armed.isSome)).length ≤ 1) ∧
    (∀ k now1 now2 sys1, step exReconfigured (.complete k now1 now2) = some sys1 →
      (∀ j, exReconfigured.se.healthCheckTimer ≠ some j →
        sys1.timers[j]? = exReconfigured.timers[j]?) ∧
      (sys1.timers.filter (fun tm => tm.armed.isSome)).length ≤ 1) :=
  ⟨⟨exHost, 0, exTraceReconfigured, rfl⟩,
    at_most_one_timer_armed exReconfigured ⟨exHost, 0, exTraceReconfigured, rfl⟩⟩

end Se4
